import Mathlib

/-!
Verification development for the block-I/O throttling subsystem
(`block/blk-throttle.c`, `block/blk-cgroup.c`).

The C code is shallowly embedded: machine integers become `Nat` with an
explicit `% 2^w` wherever the C arithmetic is performed at width `w` and
the wrap can matter; the `-1` ("no limit") sentinels of the `u64`/
`unsigned int` limit fields are the corresponding maximal values.
Jiffy timestamps are modelled as unwrapped naturals, so the kernel's
wrap-safe `time_after`/`time_before`/`time_in_range` macros become the
plain order on `Nat`.  Locks, RCU, blktrace logging and `printk` calls
have no observable effect on the modelled state and are omitted.
Statements that would crash the kernel (dereferencing a NULL or
uninitialised pointer, a failing `BUG_ON`) are modelled by returning
`none` from an `Option`-valued function.
-/

namespace BlkThrottle

/-- `HZ`, the kernel tick rate (a common configuration value). -/
def HZ : Nat := 1000

/-- `throtl_slice = HZ/10`: throttling is performed over a 100 ms slice. -/
def throtl_slice : Nat := HZ / 10

/-- `2^64`, the modulus of `u64` / 64-bit `unsigned long` arithmetic. -/
def U64 : Nat := 2 ^ 64

/-- `2^32`, the modulus of `unsigned int` arithmetic. -/
def U32 : Nat := 2 ^ 32

/-- `(u64)-1`, the "no limit" sentinel of the `bps` fields. -/
def U64MAX : Nat := U64 - 1

/-- `(unsigned int)-1 = UINT_MAX`, the "no limit" sentinel of `iops`. -/
def U32MAX : Nat := U32 - 1

/-- `UINT_MAX` as used by `tg_with_in_iops_limit`. -/
def UINT_MAX : Nat := U32MAX

/-- The kernel `roundup(x, y)` macro: `((x + y - 1) / y) * y`. -/
def roundup (x y : Nat) : Nat := ((x + y - 1) / y) * y

/-- The combined read+write direction index (`READ = 0`, `WRITE = 1`,
`RANDW = 2`). -/
def RANDW : Fin 3 := 2

/-- A bio: direction (`bio_data_dir`), size (`bi_iter.bi_size`), the
`REQ_THROTTLED` bit of `bi_rw`, and the request queue of `bi_bdev`. -/
structure Bio where
  dir : Fin 2
  size : Nat
  throttled : Bool
  queueId : Nat
deriving Repr, DecidableEq

/-- `bio_data_dir(bio)` viewed as an index into a 3-entry limit array. -/
def Bio.rw (b : Bio) : Fin 3 := Fin.castLE (by omega) b.dir

/-- Address of a qnode: the owning throttle group, whether it is
`qnode_on_parent` (else `qnode_on_self`), and the direction. -/
structure QnodeId where
  tgId : Nat
  onParent : Bool
  rw : Fin 2
deriving Repr, DecidableEq

/-- A `throtl_service_queue`: per-direction lists of linked qnodes and
queued-bio counters, the pending RB-tree (kept as its in-order listing of
`(disptime key, child TG id)` pairs — a BST inserted with ties going
right lists equal keys in insertion order), `nr_pending`,
`first_pending_disptime`, and the one-shot `pending_timer` (the expiry it
is armed at, if armed).  The `first_pending` cache is an optimisation
with no observable effect and is not modelled. -/
structure SQ where
  queued : Fin 2 → List QnodeId
  nr_queued : Fin 2 → Nat
  pending : List (Nat × Nat)
  nr_pending : Nat
  first_pending_disptime : Nat
  timer : Option Nat

def SQ.empty : SQ :=
  ⟨fun _ => [], fun _ => 0, [], 0, 0, none⟩

instance : Inhabited SQ := ⟨SQ.empty⟩

/-- A `throtl_grp`.  Limits (`bps` is `u64`, `iops` is `unsigned int`,
with the `-1` sentinels stored as `U64MAX`/`U32MAX`), slice state and
consumption counters per direction, the `has_rules` flags, `disptime`,
the `THROTL_TG_PENDING` and `THROTL_TG_WAS_EMPTY` flags, the `fake`
marker and `fake_d` back-pointer (an index into the fake-device list),
the blkg reference count, the bio FIFOs of `qnode_on_self[rw]` and
`qnode_on_parent[rw]`, the embedded service queue, the parent TG
(`service_queue.parent_sq`; `none` means the parent is the device root
service queue of `queueId`'s throttle data). -/
structure TG where
  bps : Fin 3 → Nat
  iops : Fin 3 → Nat
  bytes_disp : Fin 3 → Nat
  io_disp : Fin 3 → Nat
  slice_start : Fin 3 → Nat
  slice_end : Fin 3 → Nat
  has_rules : Fin 3 → Bool
  disptime : Nat
  pendingFlag : Bool
  wasEmpty : Bool
  fake : Bool
  fakeDIdx : Option Nat
  refcnt : Nat
  qnode_self : Fin 2 → List Bio
  qnode_parent : Fin 2 → List Bio
  sq : SQ
  parent : Option Nat
  queueId : Nat

/-- A freshly `throtl_pd_init`-ed group: zeroed state with all limits at
the `-1` sentinel. -/
def TG.init : TG where
  bps := fun _ => U64MAX
  iops := fun _ => U32MAX
  bytes_disp := fun _ => 0
  io_disp := fun _ => 0
  slice_start := fun _ => 0
  slice_end := fun _ => 0
  has_rules := fun _ => false
  disptime := 0
  pendingFlag := false
  wasEmpty := false
  fake := false
  fakeDIdx := none
  refcnt := 0
  qnode_self := fun _ => []
  qnode_parent := fun _ => []
  sq := SQ.empty
  parent := none
  queueId := 0

instance : Inhabited TG := ⟨TG.init⟩

/-- A `fake_device`: its id, the header TG (`fake_d->tg`, an index into
the TG arena) and the member list (pairs of a physical request-queue id
and the member TG index). -/
structure FD where
  id : Nat
  tgId : Nat
  members : List (Nat × Nat)
deriving Repr, DecidableEq

/-- A `throtl_data` (one per physical device): its root service queue
and `nr_queued[2]`. -/
structure TD where
  sq : SQ
  nr_queued : Fin 2 → Nat

instance : Inhabited TD := ⟨⟨SQ.empty, fun _ => 0⟩⟩

/-- The modelled system state: the TG arena, the per-device throttle
data (indexed by request-queue id) and the issuing blkcg's fake-device
list (`blkcg->fd_head` chain, head first). -/
structure Sys where
  tgs : List TG
  tds : List TD
  fds : List FD

def getTG (s : Sys) (i : Nat) : TG := s.tgs.getD i TG.init

def setTG (s : Sys) (i : Nat) (tg : TG) : Sys := { s with tgs := s.tgs.set i tg }

def getTD (s : Sys) (q : Nat) : TD := s.tds.getD q default

def setTD (s : Sys) (q : Nat) (td : TD) : Sys := { s with tds := s.tds.set q td }

/-- A reference to a service queue: either a device root
(`&td->service_queue` of queue `q`) or the one embedded in a TG. -/
inductive SQRef where
  | root (q : Nat)
  | tg (i : Nat)
deriving Repr, DecidableEq

def getSQ (s : Sys) : SQRef → SQ
  | .root q => (getTD s q).sq
  | .tg i => (getTG s i).sq

def setSQ (s : Sys) (r : SQRef) (sq : SQ) : Sys :=
  match r with
  | .root q => setTD s q { getTD s q with sq := sq }
  | .tg i => setTG s i { getTG s i with sq := sq }

/-- `tg->service_queue.parent_sq` as a reference: the parent TG's queue
when there is a parent TG, else the device root queue. -/
def parentSQRef (s : Sys) (i : Nat) : SQRef :=
  match (getTG s i).parent with
  | some p => .tg p
  | none => .root (getTG s i).queueId

/-! ## Token bucket (slice accounting), from `blk-throttle.c` -/

/-- `throtl_slice_used`: the slice is used when `jiffies` is outside the
inclusive range `[slice_start, slice_end]` (`time_in_range`). -/
def throtl_slice_used (tg : TG) (rw : Fin 3) (now : Nat) : Bool :=
  !(tg.slice_start rw ≤ now && now ≤ tg.slice_end rw)

/-- `throtl_start_new_slice`. -/
def throtl_start_new_slice (tg : TG) (rw : Fin 3) (now : Nat) : TG :=
  { tg with
    bytes_disp := Function.update tg.bytes_disp rw 0
    io_disp := Function.update tg.io_disp rw 0
    slice_start := Function.update tg.slice_start rw now
    slice_end := Function.update tg.slice_end rw (now + throtl_slice) }

/-- `throtl_start_new_slice_with_credit`. -/
def throtl_start_new_slice_with_credit (tg : TG) (rw : Fin 3) (start now : Nat) : TG :=
  { tg with
    bytes_disp := Function.update tg.bytes_disp rw 0
    io_disp := Function.update tg.io_disp rw 0
    slice_start := Function.update tg.slice_start rw
      (if start ≥ tg.slice_start rw then start else tg.slice_start rw)
    slice_end := Function.update tg.slice_end rw (now + throtl_slice) }

/-- `throtl_set_slice_end`: `slice_end[rw] = roundup(jiffy_end, throtl_slice)`. -/
def throtl_set_slice_end (tg : TG) (rw : Fin 3) (jiffy_end : Nat) : TG :=
  { tg with slice_end := Function.update tg.slice_end rw (roundup jiffy_end throtl_slice) }

/-- `throtl_extend_slice` (identical body to `throtl_set_slice_end`). -/
def throtl_extend_slice (tg : TG) (rw : Fin 3) (jiffy_end : Nat) : TG :=
  throtl_set_slice_end tg rw jiffy_end

/-- `throtl_trim_slice`.  The entry assertion
`BUG_ON(time_before(slice_end, slice_start))` becomes a hypothesis of the
theorems about this function.  `do_div(tmp, HZ)` divides the 64-bit
product; the `io_trim` product is likewise 64-bit (`unsigned int`
promoted to `unsigned long`). -/
def throtl_trim_slice (tg : TG) (rw : Fin 3) (now : Nat) : TG :=
  if throtl_slice_used tg rw now then tg
  else
    let tg1 := throtl_set_slice_end tg rw (now + throtl_slice)
    let time_elapsed := now - tg1.slice_start rw
    let nr_slices := time_elapsed / throtl_slice
    if nr_slices = 0 then tg1
    else
      let bytes_trim := tg1.bps rw * throtl_slice * nr_slices % U64 / HZ
      let io_trim := tg1.iops rw * throtl_slice * nr_slices % U64 / HZ
      if bytes_trim = 0 ∧ io_trim = 0 then tg1
      else
        { tg1 with
          bytes_disp := Function.update tg1.bytes_disp rw
            (if tg1.bytes_disp rw ≥ bytes_trim then tg1.bytes_disp rw - bytes_trim else 0)
          io_disp := Function.update tg1.io_disp rw
            (if tg1.io_disp rw ≥ io_trim then tg1.io_disp rw - io_trim else 0)
          slice_start := Function.update tg1.slice_start rw
            (tg1.slice_start rw + nr_slices * throtl_slice) }

/-- The `jiffy_elapsed_rnd` computed by both limit checkers: the elapsed
time since `slice_start`, one whole slice when it is zero, rounded up to
a multiple of `throtl_slice`. -/
def jiffy_elapsed_rnd (tg : TG) (d : Fin 3) (now : Nat) : Nat :=
  roundup (if now - tg.slice_start d = 0 then throtl_slice else now - tg.slice_start d)
    throtl_slice

/-- `bytes_allowed` of `tg_with_in_bps_limit` at layer `d`:
`tmp = bps[d] * jiffy_elapsed_rnd; do_div(tmp, HZ)`. -/
def bytes_allowed (tg : TG) (d : Fin 3) (now : Nat) : Nat :=
  tg.bps d * jiffy_elapsed_rnd tg d now % U64 / HZ

/-- The over-limit wait computed by `tg_with_in_bps_limit` at layer `d`:
`extra_bytes = bytes_disp + size - bytes_allowed`,
`jiffy_wait = div64_u64(extra_bytes * HZ, bps)` (floored at 1), plus the
rounding adjustment `jiffy_elapsed_rnd - jiffy_elapsed`. -/
def bps_over_wait (tg : TG) (bio : Bio) (d : Fin 3) (now : Nat) : Nat :=
  let jiffy_elapsed := now - tg.slice_start d
  let extra_bytes := (tg.bytes_disp d + bio.size) % U64 - bytes_allowed tg d now
  let jw := extra_bytes * HZ % U64 / tg.bps d
  ((if jw = 0 then 1 else jw) + (jiffy_elapsed_rnd tg d now - jiffy_elapsed)) % U64

/-- `io_allowed` of `tg_with_in_iops_limit` at layer `d`:
`tmp = (u64)iops[d] * jiffy_elapsed_rnd / HZ`, capped at `UINT_MAX`. -/
def io_allowed (tg : TG) (d : Fin 3) (now : Nat) : Nat :=
  let tmp := tg.iops d * jiffy_elapsed_rnd tg d now % U64 / HZ
  if tmp > UINT_MAX then UINT_MAX else tmp

/-- The over-limit wait computed by `tg_with_in_iops_limit` at layer
`d`: `jiffy_wait = (io_disp + 1) * HZ / iops + 1` in `unsigned int`
arithmetic, then reduced by the elapsed time (floored at 1). -/
def iops_over_wait (tg : TG) (d : Fin 3) (now : Nat) : Nat :=
  let jiffy_elapsed := now - tg.slice_start d
  let jw := ((tg.io_disp d + 1) % U32 * HZ % U32 / tg.iops d + 1) % U32
  if jw > jiffy_elapsed then jw - jiffy_elapsed else 1

/-- `tg_with_in_bps_limit`.  The caller initialises `*wait` to zero; the
function checks the bio's own direction first, then `RANDW`, writing
`*wait` exactly as the source does, and returns `*wait == 0`. -/
def tg_with_in_bps_limit (tg : TG) (bio : Bio) (now : Nat) : Bool × Nat :=
  let rw := bio.rw
  let w1 : Nat :=
    if tg.bps rw ≠ U64MAX then
      if (tg.bytes_disp rw + bio.size) % U64 ≤ bytes_allowed tg rw now then 0
      else bps_over_wait tg bio rw now
    else 0
  let w2 : Nat :=
    if tg.bps RANDW ≠ U64MAX then
      if (tg.bytes_disp RANDW + bio.size) % U64 ≤ bytes_allowed tg RANDW now then
        if tg.bps rw = U64MAX then 0 else w1
      else
        if tg.bps rw ≠ U64MAX then max w1 (bps_over_wait tg bio RANDW now)
        else bps_over_wait tg bio RANDW now
    else w1
  (w2 == 0, w2)

/-- `tg_with_in_iops_limit`, with the same `*wait` protocol. -/
def tg_with_in_iops_limit (tg : TG) (bio : Bio) (now : Nat) : Bool × Nat :=
  let rw := bio.rw
  let w1 : Nat :=
    if tg.iops rw ≠ U32MAX then
      if (tg.io_disp rw + 1) % U32 ≤ io_allowed tg rw now then 0
      else iops_over_wait tg rw now
    else 0
  let w2 : Nat :=
    if tg.iops RANDW ≠ U32MAX then
      if (tg.io_disp RANDW + 1) % U32 ≤ io_allowed tg RANDW now then
        if tg.iops rw = U32MAX then 0 else w1
      else
        if tg.iops rw ≠ U32MAX then max w1 (iops_over_wait tg RANDW now)
        else iops_over_wait tg RANDW now
    else w1
  (w2 == 0, w2)

/-- The slice renewal/extension `tg_may_dispatch` performs for one layer
before checking the limits. -/
def may_dispatch_adjust (tg : TG) (d : Fin 3) (now : Nat) : TG :=
  if throtl_slice_used tg d now then throtl_start_new_slice tg d now
  else if tg.slice_end d < now + throtl_slice then
    throtl_extend_slice tg d (now + throtl_slice)
  else tg

/-- `tg_may_dispatch`: returns whether the bio may be dispatched, the
wait (the value the source stores through its `wait` out-parameter, 0 on
the fast path and on success) and the updated group (slice renewals,
extensions).  The `&&` in the source short-circuits: when the BPS check
fails the IOPS checker never runs and `iops_wait` keeps its initial 0. -/
def tg_may_dispatch (tg : TG) (bio : Bio) (now : Nat) : Bool × Nat × TG :=
  let rw := bio.rw
  if tg.bps rw = U64MAX ∧ tg.iops rw = U32MAX ∧ tg.bps RANDW = U64MAX ∧
      tg.iops RANDW = U32MAX then
    (true, 0, tg)
  else
    let tg1 := may_dispatch_adjust tg rw now
    let tg2 := may_dispatch_adjust tg1 RANDW now
    let b := tg_with_in_bps_limit tg2 bio now
    if b.1 && (tg_with_in_iops_limit tg2 bio now).1 then (true, 0, tg2)
    else
      let iops_wait := if b.1 then (tg_with_in_iops_limit tg2 bio now).2 else 0
      let max_wait := max b.2 iops_wait
      let tg3 :=
        if tg2.slice_end rw < now + max_wait then
          throtl_extend_slice tg2 rw (now + max_wait)
        else tg2
      let tg4 :=
        if tg3.slice_end RANDW < now + max_wait then
          throtl_extend_slice tg3 RANDW (now + max_wait)
        else tg3
      (false, max_wait, tg4)

/-- `throtl_charge_bio`: charge the bio to both the `rw` and `RANDW`
counters (`u64` bytes, `unsigned int` IOs) and set its `REQ_THROTTLED`
bit.  The dispatch-stats update guarded by the first setting of the bit
is compiled out in the source. -/
def throtl_charge_bio (tg : TG) (bio : Bio) : TG × Bio :=
  let rw := bio.rw
  let tg1 :=
    { tg with
      bytes_disp := fun d =>
        if d = rw ∨ d = RANDW then (tg.bytes_disp d + bio.size) % U64
        else tg.bytes_disp d
      io_disp := fun d =>
        if d = rw ∨ d = RANDW then (tg.io_disp d + 1) % U32 else tg.io_disp d }
  (tg1, { bio with throttled := true })

/-! ## Service queue, pending tree, timer -/

/-- In-order insertion into the pending tree: the source inserts with
`time_before(key, cur) ? left : right`, so a new key goes after every
existing key that is `≤` it (ties break towards insertion order). -/
def pendingInsert : List (Nat × Nat) → Nat → Nat → List (Nat × Nat)
  | [], key, id => [(key, id)]
  | (k, j) :: rest, key, id =>
    if key < k then (key, id) :: (k, j) :: rest
    else (k, j) :: pendingInsert rest key id

/-- `throtl_rb_first`: `NULL` when `nr_pending` is zero, otherwise the
leftmost tree entry.  While a TG is linked its key equals its
`disptime` (keys are only written at insertion and `tg_update_disptime`
always re-inserts), so the stored key is returned for the disptime. -/
def throtl_rb_first (sq : SQ) : Option (Nat × Nat) :=
  if sq.nr_pending = 0 then none else sq.pending.head?

/-- `update_min_dispatch_time`: copy the leftmost pending disptime, a
no-op when there is none. -/
def update_min_dispatch_time (sq : SQ) : SQ :=
  match throtl_rb_first sq with
  | none => sq
  | some (k, _) => { sq with first_pending_disptime := k }

/-- `throtl_schedule_pending_timer`: `mod_timer(&sq->pending_timer, expires)`. -/
def throtl_schedule_pending_timer (sq : SQ) (expires : Nat) : SQ :=
  { sq with timer := some expires }

/-- `throtl_schedule_next_dispatch(sq, force)` at `jiffies = now`. -/
def throtl_schedule_next_dispatch (sq : SQ) (force : Bool) (now : Nat) : Bool × SQ :=
  if sq.nr_pending = 0 then (true, sq)
  else
    let sq1 := update_min_dispatch_time sq
    if force || now < sq1.first_pending_disptime then
      (true, throtl_schedule_pending_timer sq1 sq1.first_pending_disptime)
    else
      (false, sq1)

/-- System-level wrapper of `throtl_schedule_next_dispatch` acting on a
referenced service queue. -/
def throtl_schedule_next_dispatch_sys (s : Sys) (r : SQRef) (force : Bool) (now : Nat) :
    Bool × Sys :=
  let (done, sq) := throtl_schedule_next_dispatch (getSQ s r) force now
  (done, setSQ s r sq)

/-- `tg_service_queue_add`: insert the TG into its parent's pending tree
keyed by its `disptime`. -/
def tg_service_queue_add (s : Sys) (i : Nat) : Sys :=
  let r := parentSQRef s i
  let sq := getSQ s r
  setSQ s r { sq with pending := pendingInsert sq.pending (getTG s i).disptime i }

/-- `__throtl_enqueue_tg` guarded by the `PENDING` flag
(`throtl_enqueue_tg`). -/
def throtl_enqueue_tg (s : Sys) (i : Nat) : Sys :=
  if (getTG s i).pendingFlag then s
  else
    let s1 := tg_service_queue_add s i
    let s2 := setTG s1 i { getTG s1 i with pendingFlag := true }
    let r := parentSQRef s2 i
    let sq := getSQ s2 r
    setSQ s2 r { sq with nr_pending := sq.nr_pending + 1 }

/-- `throtl_rb_erase`: unlink the TG from its parent's pending tree and
decrement `nr_pending`. -/
def throtl_rb_erase (s : Sys) (i : Nat) : Sys :=
  let r := parentSQRef s i
  let sq := getSQ s r
  setSQ s r
    { sq with
      pending := sq.pending.filter (fun e => e.2 ≠ i)
      nr_pending := sq.nr_pending - 1 }

/-- `__throtl_dequeue_tg` guarded by the `PENDING` flag
(`throtl_dequeue_tg`). -/
def throtl_dequeue_tg (s : Sys) (i : Nat) : Sys :=
  if (getTG s i).pendingFlag then
    let s1 := throtl_rb_erase s i
    setTG s1 i { getTG s1 i with pendingFlag := false }
  else s

/-! ## Qnodes on service queues -/

/-- The bio FIFO a `QnodeId` addresses. -/
def qnodeBios (s : Sys) (qid : QnodeId) : List Bio :=
  let tg := getTG s qid.tgId
  if qid.onParent then tg.qnode_parent qid.rw else tg.qnode_self qid.rw

def setQnodeBios (s : Sys) (qid : QnodeId) (l : List Bio) : Sys :=
  let tg := getTG s qid.tgId
  if qid.onParent then
    setTG s qid.tgId { tg with qnode_parent := Function.update tg.qnode_parent qid.rw l }
  else
    setTG s qid.tgId { tg with qnode_self := Function.update tg.qnode_self qid.rw l }

/-- `throtl_qnode_add_bio`: append the bio to the qnode; if the qnode is
not yet linked (its only possible home is the target list, so linkage is
membership there), link it at the tail and take a blkg reference on its
owning TG. -/
def throtl_qnode_add_bio (s : Sys) (bio : Bio) (qid : QnodeId) (r : SQRef) : Sys :=
  let s1 := setQnodeBios s qid (qnodeBios s qid ++ [bio])
  let sq := getSQ s1 r
  if qid ∈ sq.queued qid.rw then s1
  else
    let s2 := setSQ s1 r
      { sq with queued := Function.update sq.queued qid.rw (sq.queued qid.rw ++ [qid]) }
    setTG s2 qid.tgId { getTG s2 qid.tgId with refcnt := (getTG s2 qid.tgId).refcnt + 1 }

/-- `throtl_qnode_add_bio_withoutblkg`: same except the `blkg_get` is
compiled out (fake-device TGs have no blkg). -/
def throtl_qnode_add_bio_withoutblkg (s : Sys) (bio : Bio) (qid : QnodeId) (r : SQRef) :
    Sys :=
  let s1 := setQnodeBios s qid (qnodeBios s qid ++ [bio])
  let sq := getSQ s1 r
  if qid ∈ sq.queued qid.rw then s1
  else
    setSQ s1 r
      { sq with queued := Function.update sq.queued qid.rw (sq.queued qid.rw ++ [qid]) }

/-- `throtl_peek_queued`: the head bio of the head qnode (`NULL` when no
qnode is linked; a linked qnode is never empty, `WARN_ON_ONCE` guards
the contrary). -/
def throtl_peek_queued (s : Sys) (queued : List QnodeId) : Option Bio :=
  match queued with
  | [] => none
  | qid :: _ => (qnodeBios s qid).head?

/-- `throtl_add_bio_tg`: mark the target empty-transition, add the bio
through the given qnode (defaulting to `qnode_on_self[rw]`), bump the
queued count and enqueue the TG on its parent's pending tree. -/
def throtl_add_bio_tg (s : Sys) (bio : Bio) (qn : Option QnodeId) (i : Nat) : Sys :=
  let rw := bio.dir
  let qid := match qn with
    | some q => q
    | none => ⟨i, false, rw⟩
  let tg := getTG s i
  let s1 := if tg.sq.nr_queued rw = 0 then setTG s i { tg with wasEmpty := true } else s
  let s2 := throtl_qnode_add_bio s1 bio qid (.tg i)
  let sq := (getTG s2 i).sq
  let s3 := setTG s2 i
    { getTG s2 i with
      sq := { sq with nr_queued := Function.update sq.nr_queued rw (sq.nr_queued rw + 1) } }
  throtl_enqueue_tg s3 i

/-! ## Fake-device helpers -/

/-- `queue_to_fd_member`: the first member whose queue matches. -/
def queue_to_fd_member (fd : FD) (q : Nat) : Option (Nat × Nat) :=
  fd.members.find? (fun m => m.1 == q)

/-- `queue_in_fake_d`. -/
def queue_in_fake_d (fd : FD) (q : Nat) : Bool :=
  fd.members.any (fun m => m.1 == q)

/-- `fake_d_has_limit`: the header TG's `has_rules[rw]` when the queue
is a member, else false. -/
def fake_d_has_limit (s : Sys) (fd : FD) (rw : Fin 3) (q : Nat) : Bool :=
  if queue_in_fake_d fd q then (getTG s fd.tgId).has_rules rw else false

/-- `update_fd_queuenr`: recompute the header's
`service_queue.nr_queued` from the members.  The accumulator `total` is
declared once outside the direction loop and is not reset between the
READ and WRITE iterations, exactly as in the source. -/
def update_fd_queuenr (s : Sys) (fd : FD) : Sys :=
  let t0 := fd.members.foldl (fun acc m => acc + (getTG s m.2).sq.nr_queued 0) 0
  let hdr := getTG s fd.tgId
  let s1 :=
    if t0 ≤ hdr.sq.nr_queued 0 then
      setTG s fd.tgId
        { hdr with sq := { hdr.sq with nr_queued := Function.update hdr.sq.nr_queued 0 t0 } }
    else s
  let t1 := fd.members.foldl (fun acc m => acc + (getTG s1 m.2).sq.nr_queued 1) t0
  let hdr1 := getTG s1 fd.tgId
  if t1 ≤ hdr1.sq.nr_queued 1 then
    setTG s1 fd.tgId
      { hdr1 with
        sq := { hdr1.sq with nr_queued := Function.update hdr1.sq.nr_queued 1 t1 } }
  else s1

/-- `throtl_add_bio_fd_tg(bio, fake_d, q)`: mark the header
empty-transition, queue the bio on the matching member TG's
`qnode_on_self` (without a blkg reference), bump both the member's and
the header's queued counters and enqueue the member TG.
`BUG_ON(!fd_member)` is a crash, modelled as `none`. -/
def throtl_add_bio_fd_tg (s : Sys) (bio : Bio) (fd : FD) (q : Nat) : Option Sys :=
  let rw := bio.dir
  let hdr := getTG s fd.tgId
  let s1 := if hdr.sq.nr_queued rw = 0 then setTG s fd.tgId { hdr with wasEmpty := true } else s
  match queue_to_fd_member fd q with
  | none => none
  | some m =>
    let i := m.2
    let s2 := throtl_qnode_add_bio_withoutblkg s1 bio ⟨i, false, rw⟩ (.tg i)
    let msq := (getTG s2 i).sq
    let s3 := setTG s2 i
      { getTG s2 i with
        sq := { msq with nr_queued := Function.update msq.nr_queued rw (msq.nr_queued rw + 1) } }
    let hsq := (getTG s3 fd.tgId).sq
    let s4 := setTG s3 fd.tgId
      { getTG s3 fd.tgId with
        sq := { hsq with nr_queued := Function.update hsq.nr_queued rw (hsq.nr_queued rw + 1) } }
    some (throtl_enqueue_tg s4 i)

/-- `throtl_charge_bio_recursively`: charge the fake-device header and
then every member. -/
def throtl_charge_bio_recursively (s : Sys) (fd : FD) (bio : Bio) : Sys × Bio :=
  let (hdr, bio1) := throtl_charge_bio (getTG s fd.tgId) bio
  let s1 := setTG s fd.tgId hdr
  fd.members.foldl
    (fun acc m =>
      let (tg, b) := throtl_charge_bio (getTG acc.1 m.2) acc.2
      (setTG acc.1 m.2 tg, b))
    (s1, bio1)

/-- `throtl_trim_slice_recursively`. -/
def throtl_trim_slice_recursively (s : Sys) (fd : FD) (rw : Fin 3) (now : Nat) : Sys :=
  let s1 := setTG s fd.tgId (throtl_trim_slice (getTG s fd.tgId) rw now)
  fd.members.foldl (fun acc m => setTG acc m.2 (throtl_trim_slice (getTG acc m.2) rw now)) s1

/-! ## Dispatch-time bookkeeping -/

/-- `tg_update_disptime`: probe the head bio of each direction with
`tg_may_dispatch` (the wait variables start at `(unsigned long)-1`),
move the TG to its new position in the parent's pending tree and clear
`WAS_EMPTY`. -/
def tg_update_disptime (s : Sys) (i : Nat) (now : Nat) : Sys :=
  let p1 :=
    match throtl_peek_queued s ((getTG s i).sq.queued 0) with
    | some bio =>
      let r := tg_may_dispatch (getTG s i) bio now
      (r.2.1, setTG s i r.2.2)
    | none => (U64MAX, s)
  let read_wait := p1.1
  let s1 := p1.2
  let p2 :=
    match throtl_peek_queued s1 ((getTG s1 i).sq.queued 1) with
    | some bio =>
      let r := tg_may_dispatch (getTG s1 i) bio now
      (r.2.1, setTG s1 i r.2.2)
    | none => (U64MAX, s1)
  let write_wait := p2.1
  let s2 := p2.2
  let disptime := (now + min read_wait write_wait) % U64
  let s3 := throtl_dequeue_tg s2 i
  let s4 := setTG s3 i { getTG s3 i with disptime := disptime }
  let s5 := throtl_enqueue_tg s4 i
  setTG s5 i { getTG s5 i with wasEmpty := false }

/-- One member step of the probe loop in
`tg_update_disptime_recursively`: the wait variables persist across
members (they are declared once before the loop), so a member without a
queued bio in some direction leaves the previous member's wait in
place. -/
def fd_probe_step (now : Nat) (acc : Nat × Nat × Nat × Sys) (m : Nat × Nat) :
    Nat × Nat × Nat × Sys :=
  let read_wait := acc.1
  let write_wait := acc.2.1
  let min_wait := acc.2.2.1
  let s := acc.2.2.2
  let i := m.2
  let p1 :=
    match throtl_peek_queued s ((getTG s i).sq.queued 0) with
    | some bio =>
      let r := tg_may_dispatch (getTG s i) bio now
      (r.2.1, setTG s i r.2.2)
    | none => (read_wait, s)
  let p2 :=
    match throtl_peek_queued p1.2 ((getTG p1.2 i).sq.queued 1) with
    | some bio =>
      let r := tg_may_dispatch (getTG p1.2 i) bio now
      (r.2.1, setTG p1.2 i r.2.2)
    | none => (write_wait, p1.2)
  let mw := min p2.1 (min p1.1 min_wait)
  (p1.1, p2.1, mw, p2.2)

/-- `tg_update_disptime_recursively`: probe every member, give the
header and every member the common new disptime (members are moved in
their pending trees), clearing `WAS_EMPTY` throughout. -/
def tg_update_disptime_recursively (s : Sys) (fd : FD) (now : Nat) : Sys :=
  let probe := fd.members.foldl (fd_probe_step now) (U64MAX, U64MAX, U64MAX, s)
  let min_wait := probe.2.2.1
  let s1 := probe.2.2.2
  let disptime := (now + min_wait) % U64
  let s2 := setTG s1 fd.tgId
    { getTG s1 fd.tgId with disptime := disptime, wasEmpty := false }
  fd.members.foldl
    (fun acc m =>
      let a1 := throtl_dequeue_tg acc m.2
      let a2 := setTG a1 m.2 { getTG a1 m.2 with disptime := disptime }
      let a3 := throtl_enqueue_tg a2 m.2
      setTG a3 m.2 { getTG a3 m.2 with wasEmpty := false })
    s2

/-! ## `blk_throtl_bio`

The entry point is modelled as a function of the system state, the
bio's request queue, the two environment-provided TG lookups
(`throtl_lookup_tg` under RCU and `throtl_lookup_create_tg` under the
queue lock — blkg management is outside the throttling core), the value
that happens to sit in the uninitialised local `fake_d` (`junkFd`; the
source never assigns it before its use on the over-limit path unless
the no-rules prescan ran, which leaves it `NULL`), the current jiffies
and the bio.  The result is `none` when the kernel would crash
(dereference of a NULL/garbage pointer or a failing `BUG_ON`). -/

/-- Result of the hierarchy-climbing `while (true)` loop: the bio must
be queued at the current TG, or control reaches `fake_device_check`
(`goto` at the top with a non-empty fake-device list), or the bio passed
every level and leaves unthrottled (`goto out_unlock`). -/
inductive ClimbOut where
  | queueHere (s : Sys) (bio : Bio) (t : Nat) (qn : Option QnodeId)
  | toFdCheck (s : Sys) (bio : Bio) (qn : Option QnodeId)
  | exitDirect (s : Sys) (bio : Bio)

/-- The climbing loop of `blk_throtl_bio`.  The fuel bounds the length
of the `parent_sq` chain (callers pass one more than the arena size,
enough for any acyclic chain; the kernel's chains are acyclic). -/
def blk_throtl_climb (q now : Nat) : Nat → Sys → Bio → Nat → Option QnodeId → ClimbOut
  | 0, s, bio, _, _ => .exitDirect s bio
  | fuel + 1, s, bio, t, qn =>
    let rw := bio.dir
    if (getTG s t).sq.nr_queued rw ≠ 0 then .queueHere s bio t qn
    else
      let r := tg_may_dispatch (getTG s t) bio now
      let s1 := setTG s t r.2.2
      if r.1 = false then .queueHere s1 bio t qn
      else
        let c := throtl_charge_bio (getTG s1 t) bio
        let s2 := setTG s1 t c.1
        let bio1 := c.2
        let s3 :=
          if (getTG s2 t).has_rules bio1.rw then
            setTG s2 t (throtl_trim_slice (getTG s2 t) bio1.rw now)
          else s2
        let s4 :=
          if (getTG s3 t).has_rules RANDW then
            setTG s3 t (throtl_trim_slice (getTG s3 t) RANDW now)
          else s3
        let qn1 : Option QnodeId := some ⟨t, true, rw⟩
        match (getTG s4 t).parent with
        | some p => blk_throtl_climb q now fuel s4 bio1 p qn1
        | none =>
          if s4.fds.isEmpty then .exitDirect s4 bio1 else .toFdCheck s4 bio1 qn1

/-- The out-of-limit block of `blk_throtl_bio` (the code after the
climbing loop): bump `tg->td->nr_queued[rw]` and queue the bio with
`throtl_add_bio_fd_tg(bio, fake_d, q)`, where `fake_d` is the
uninitialised (or, after the prescan, NULL) local; then, if the current
physical TG was empty, update its disptime and force-schedule its
parent.  A NULL/out-of-range `fake_d` is a crash. -/
def blk_throtl_queue_over_limit (s : Sys) (bio : Bio) (t : Nat) (fdVar : Option Nat)
    (q now : Nat) : Option Sys :=
  let rw := bio.dir
  let td := getTD s (getTG s t).queueId
  let s1 := setTD s (getTG s t).queueId
    { td with nr_queued := Function.update td.nr_queued rw (td.nr_queued rw + 1) }
  match fdVar with
  | none => none
  | some j =>
    match s1.fds.get? j with
    | none => none
    | some fd =>
      match throtl_add_bio_fd_tg s1 bio fd q with
      | none => none
      | some s2 =>
        if (getTG s2 t).wasEmpty then
          let s3 := tg_update_disptime s2 t now
          some (throtl_schedule_next_dispatch_sys s3 (parentSQRef s3 t) true now).2
        else some s2

/-- The `throttled` branch of `fake_device_check`: charge the bio
recursively into every fake device that contains the queue and has a
rule for the bio's direction. -/
def blk_throtl_fd_charge (q : Nat) (fds : List FD) (s : Sys) (bio : Bio) : Sys × Bio :=
  fds.foldl
    (fun acc fd =>
      if queue_in_fake_d fd q && fake_d_has_limit acc.1 fd acc.2.rw q then
        throtl_charge_bio_recursively acc.1 fd acc.2
      else acc)
    (s, bio)

/-- The `break` continuation of the not-throttled fake-device loop:
bump `q->td->nr_queued[rw]`, queue the bio on the matching member TG
through the qnode carried down from the climb, recompute the fake
device's dispatch times and force-schedule the member's parent queue.
`queue_to_fd_member` returning NULL (dereferenced once, then checked by
`BUG_ON`) is a crash. -/
def blk_throtl_fd_break (s : Sys) (bio : Bio) (fd : FD) (qn : Option QnodeId)
    (q now : Nat) : Option (Bool × Sys × Bio) :=
  let rw := bio.dir
  let td := getTD s q
  let s1 := setTD s q
    { td with nr_queued := Function.update td.nr_queued rw (td.nr_queued rw + 1) }
  match queue_to_fd_member fd q with
  | none => none
  | some m =>
    let s2 := throtl_add_bio_tg s1 bio qn m.2
    let s3 := tg_update_disptime_recursively s2 fd now
    match queue_to_fd_member fd q with
    | none => none
    | some m2 =>
      some (true, (throtl_schedule_next_dispatch_sys s3 (parentSQRef s3 m2.2) true now).2, bio)

/-- The not-throttled branch of `fake_device_check`: walk
`blkcg->fd_head`, refreshing the header queue counters, and for every
fake device with a limit on the bio's direction either stop (queue the
bio there) or charge it through and continue.  Entering with an empty
list is the `update_fd_queuenr(NULL)` crash. -/
def blk_throtl_fd_loop (q now : Nat) :
    List FD → Sys → Bio → Option QnodeId → Option (Bool × Sys × Bio)
  | [], _, _, _ => none
  | fd :: rest, s, bio, qn =>
    let rw := bio.dir
    let s1 := update_fd_queuenr s fd
    if fake_d_has_limit s1 fd bio.rw q then
      let hdr := getTG s1 fd.tgId
      if hdr.sq.nr_queued rw ≠ 0 then blk_throtl_fd_break s1 bio fd qn q now
      else
        let r := tg_may_dispatch hdr bio now
        let s2 := setTG s1 fd.tgId r.2.2
        if r.1 = false then blk_throtl_fd_break s2 bio fd qn q now
        else
          let c := throtl_charge_bio_recursively s2 fd bio
          let s3 := c.1
          let bio1 := c.2
          let s4 :=
            if (getTG s3 fd.tgId).has_rules bio1.rw then
              throtl_trim_slice_recursively s3 fd bio1.rw now
            else s3
          let s5 :=
            if (getTG s4 fd.tgId).has_rules RANDW then
              throtl_trim_slice_recursively s4 fd RANDW now
            else s4
          match rest with
          | [] => some (false, s5, bio1)
          | _ :: _ => blk_throtl_fd_loop q now rest s5 bio1 qn
    else
      match rest with
      | [] => some (false, s1, bio)
      | _ :: _ => blk_throtl_fd_loop q now rest s1 bio qn

/-- Everything of `blk_throtl_bio` between the initial `REQ_THROTTLED`
test and the `out:` label. -/
def blk_throtl_bio_core (s : Sys) (q : Nat) (tgRcu tgCreate junkFd : Option Nat)
    (now : Nat) (bio : Bio) : Option (Bool × Sys × Bio) :=
  let pre : Option (Option Nat) :=
    match tgRcu with
    | some t =>
      if (getTG s t).has_rules bio.rw = false ∧ (getTG s t).has_rules RANDW = false then
        let without_limit :=
          !(s.fds.any fun fd =>
            queue_in_fake_d fd q &&
              (fake_d_has_limit s fd bio.rw q || fake_d_has_limit s fd RANDW q))
        if without_limit then none else some none
      else some junkFd
    | none => some junkFd
  match pre with
  | none => some (false, s, bio)
  | some fdVar =>
    match tgCreate with
    | none => blk_throtl_fd_loop q now s.fds s bio none
    | some t0 =>
      match blk_throtl_climb q now (s.tgs.length + 1) s bio t0 none with
      | .exitDirect s1 bio1 => some (false, s1, bio1)
      | .toFdCheck s1 bio1 qn => blk_throtl_fd_loop q now s1.fds s1 bio1 qn
      | .queueHere s1 bio1 t qn =>
        let _ := qn
        match blk_throtl_queue_over_limit s1 bio1 t fdVar q now with
        | none => none
        | some s2 =>
          let c := blk_throtl_fd_charge q s2.fds s2 bio1
          some (true, c.1, c.2)

/-- `blk_throtl_bio`: the `REQ_THROTTLED` fast exit, the core, and the
`out:` label, which clears the bio's `REQ_THROTTLED` bit whenever the
function returns false. -/
def blk_throtl_bio (s : Sys) (q : Nat) (tgRcu tgCreate junkFd : Option Nat)
    (now : Nat) (bio : Bio) : Option (Bool × Sys × Bio) :=
  let r :=
    if bio.throttled then some (false, s, bio)
    else blk_throtl_bio_core s q tgRcu tgCreate junkFd now bio
  match r with
  | none => none
  | some (throttled, s1, bio1) =>
    some (throttled, s1, if throttled then bio1 else { bio1 with throttled := false })

/-! ## `throtl_pop_queued`

The pop operation only looks at one `queued[]` list, so it is modelled
on a by-value list of qnodes (a qnode records its bio FIFO, its owning
TG and that TG's `fake` flag; a qnode can only ever be linked on one
list). -/

/-- A linked qnode as seen by `throtl_pop_queued`. -/
structure Qnode where
  bios : List Bio
  tgId : Nat
  tgFake : Bool
deriving Repr, DecidableEq

/-- `throtl_pop_queued(queued, tg_to_put)`: returns the popped bio, the
new list, the TG stored through `tg_to_put` (when the caller passed a
slot, `want = true`) and the TG the function itself released with
`blkg_put` (only when no slot was passed and the owning TG is not
fake). -/
def throtl_pop_queued (queued : List Qnode) (want : Bool) :
    Option Bio × List Qnode × Option Nat × Option Nat :=
  match queued with
  | [] => (none, [], none, none)
  | qn :: rest =>
    let bio := qn.bios.head?
    let restBios := qn.bios.tail
    if restBios.isEmpty then
      (bio, rest, if want then some qn.tgId else none,
        if want then none else if qn.tgFake then none else some qn.tgId)
    else
      (bio, rest ++ [{ qn with bios := restBios }], none, none)

/-! ## `has_rules` recomputation -/

/-- A TG has a finite limit for `d` when either field differs from the
`-1` sentinel (`tg->bps[rw] != -1 || tg->iops[rw] != -1`). -/
def hasFiniteLimit (tg : TG) (d : Fin 3) : Bool :=
  decide (tg.bps d ≠ U64MAX) || decide (tg.iops d ≠ U32MAX)

/-- `tg_update_has_rules`: `has_rules[rw] = (parent_tg &&
parent_tg->has_rules[rw]) || (tg->bps[rw] != -1 || tg->iops[rw] != -1)`
for every `rw` up to `RANDW`. -/
def tg_update_has_rules (parent : Option TG) (tg : TG) : TG :=
  { tg with
    has_rules := fun rw =>
      (match parent with
        | some p => p.has_rules rw
        | none => false) ||
      (decide (tg.bps rw ≠ U64MAX) || decide (tg.iops rw ≠ U32MAX)) }

/-- The pre-order `has_rules` walk of `tg_set_conf`
(`blkg_for_each_descendant_pre` calling `tg_update_has_rules`) restricted
to one root-to-leaf chain: each group is updated after its parent, the
head of the list being a device-root child (no parent TG). -/
def recompute_has_rules : Option TG → List TG → List TG
  | _, [] => []
  | parent, tg :: rest =>
    let tg1 := tg_update_has_rules parent tg
    tg1 :: recompute_has_rules (some tg1) rest

/-- `tg_fd_update_has_rules_recursively`: set the header's `has_rules`
from its own limits, then copy the header's limits to every member and
set each member's `has_rules` from the copied limits.  (The fake-device
TGs hang directly off device root service queues, so no parent TG is
consulted, as the source comment notes.) -/
def tg_fd_update_has_rules_recursively (hdr : TG) (members : List TG) : TG × List TG :=
  let hdr1 :=
    { hdr with
      has_rules := fun rw => decide (hdr.bps rw ≠ U64MAX) || decide (hdr.iops rw ≠ U32MAX) }
  (hdr1,
    members.map fun m =>
      { m with
        bps := hdr1.bps
        iops := hdr1.iops
        has_rules := fun rw =>
          decide (hdr1.bps rw ≠ U64MAX) || decide (hdr1.iops rw ≠ U32MAX) })

/-! ## Configuration parsing (`blk-cgroup.c`) -/

def EINVAL : Int := -22

def EBUSY : Int := -16

def ERESTARTNOINTR : Int := -513

/-- The environment of a configuration write: `get_gendisk` (mapping
`(major, minor)` to a disk id and partition number), per-queue policy
activation and `blkg_lookup_create` (which may fail, e.g. with `-EBUSY`
while the queue bypasses).  `sscanf` is libc: an input line is modelled
by its parse result (`none` when the expected number of fields did not
match). -/
structure ConfEnv where
  gendisk : Nat → Nat → Option (Nat × Nat)
  policyEnabled : Nat → Bool
  blkgLookupCreate : Nat → Except Int Nat

/-- `blkg_conf_prep` for the six per-device files: parse
`MAJOR:MINOR VALUE`, reject unknown devices and partitions with
`-EINVAL`, then look up/create the blkg (an `-EBUSY` lookup is retried
via `restart_syscall`, surfacing `-ERESTARTNOINTR`). -/
def blkg_conf_prep (env : ConfEnv) (parsed : Option (Nat × Nat × Nat)) :
    Except Int (Nat × Nat × Nat) :=
  match parsed with
  | none => .error EINVAL
  | some (major, minor, v) =>
    match env.gendisk major minor with
    | none => .error EINVAL
    | some (disk, part) =>
      if part ≠ 0 then .error EINVAL
      else
        match
          (if env.policyEnabled disk then env.blkgLookupCreate disk
            else .error EINVAL : Except Int Nat) with
        | .error ret => .error (if ret = EBUSY then ERESTARTNOINTR else ret)
        | .ok blkg => .ok (disk, blkg, v)

/-- `tg_init` of `blk-cgroup.c` applied to a zeroed allocation: a fake
TG with `-1` limits, no rules and zeroed consumption. -/
def tg_init_fd : TG :=
  { TG.init with fake := true }

/-- `fd_lookup_create`: find the fake device with the given id on
`blkcg->fd_head`, or allocate a header TG and a new fake device pushed
at the head of the list.  (Allocation failure is an out-of-memory path
outside this model.) -/
def fd_lookup_create (s : Sys) (f_id : Nat) : Sys × FD :=
  match s.fds.find? (fun fd => fd.id == f_id) with
  | some fd => (s, fd)
  | none =>
    let tgId := s.tgs.length
    let s1 := { s with tgs := s.tgs ++ [tg_init_fd] }
    let fd : FD := ⟨f_id, tgId, []⟩
    ({ s1 with fds := fd :: s1.fds }, fd)

/-- `fd_member_lookup_create`: ensure the disk's queue is a member of
the fake device, allocating a member TG when absent (pushed at the head
of the member list). -/
def fd_member_lookup_create (s : Sys) (fd : FD) (disk : Nat) : Sys × FD :=
  if fd.members.any (fun m => m.1 == disk) then (s, fd)
  else
    let tgId := s.tgs.length
    let s1 := { s with tgs := s.tgs ++ [tg_init_fd] }
    let fd1 := { fd with members := (disk, tgId) :: fd.members }
    ({ s1 with fds := s1.fds.map fun f => if f.id == fd.id then fd1 else f }, fd1)

/-- `blkg_fd_conf_prep` for the two hybrid files: parse
`MAJOR:MINOR FD_ID VALUE`, reject unknown devices with `-EINVAL`; the
partition rejection present in `blkg_conf_prep` is commented out in the
source, so `part` is ignored; then find/create the fake device and its
member for this disk. -/
def blkg_fd_conf_prep (env : ConfEnv) (s : Sys) (parsed : Option (Nat × Nat × Nat × Nat)) :
    Except Int (Sys × FD × Nat × Nat) :=
  match parsed with
  | none => .error EINVAL
  | some (major, minor, fd_id, v) =>
    match env.gendisk major minor with
    | none => .error EINVAL
    | some (disk, _part) =>
      let p1 := fd_lookup_create s fd_id
      let p2 := fd_member_lookup_create p1.1 p1.2 disk
      .ok (p2.1, p2.2, disk, v)

/-! ## Spec-side component quantities

The following definitions name the per-layer quantities the spec's
composition statements speak about; they re-use the source formulas
(`bytes_allowed`, `bps_over_wait`, …) verbatim. -/

/-- The bio satisfies the BPS limit of layer `d` (no limit, or the
charged consumption would stay within `bytes_allowed`). -/
def bps_within (tg : TG) (bio : Bio) (d : Fin 3) (now : Nat) : Prop :=
  tg.bps d = U64MAX ∨ (tg.bytes_disp d + bio.size) % U64 ≤ bytes_allowed tg d now

instance (tg : TG) (bio : Bio) (d : Fin 3) (now : Nat) :
    Decidable (bps_within tg bio d now) := by
  unfold bps_within; infer_instance

/-- The BPS wait of layer `d`: zero when within (or unlimited), the
source's over-limit wait otherwise. -/
def bps_wait_comp (tg : TG) (bio : Bio) (d : Fin 3) (now : Nat) : Nat :=
  if bps_within tg bio d now then 0 else bps_over_wait tg bio d now

/-- The bio satisfies the IOPS limit of layer `d`. -/
def iops_within (tg : TG) (d : Fin 3) (now : Nat) : Prop :=
  tg.iops d = U32MAX ∨ (tg.io_disp d + 1) % U32 ≤ io_allowed tg d now

instance (tg : TG) (d : Fin 3) (now : Nat) : Decidable (iops_within tg d now) := by
  unfold iops_within; infer_instance

/-- The IOPS wait of layer `d`. -/
def iops_wait_comp (tg : TG) (d : Fin 3) (now : Nat) : Nat :=
  if iops_within tg d now then 0 else iops_over_wait tg d now

/-- The state `tg_may_dispatch` evaluates its limit checks on: both
slice layers renewed/extended. -/
def may_dispatch_adjusted (tg : TG) (bio : Bio) (now : Nat) : TG :=
  may_dispatch_adjust (may_dispatch_adjust tg bio.rw now) RANDW now

/-! ## Claim predicates

Each `claimCn` formalises the n-th claim exactly as stated, for use by
the counterexample theorems. -/

/-- Claim C5 as stated: `tg_may_dispatch` permits iff all four
(BPS/IOPS × rw/RANDW) limits are satisfied, and on rejection the wait
is the max of the BPS component and the IOPS component, each component
being the max of its rw and RANDW waits. -/
def claimC5 (tg : TG) (bio : Bio) (now : Nat) : Prop :=
  ¬(tg.bps bio.rw = U64MAX ∧ tg.iops bio.rw = U32MAX ∧ tg.bps RANDW = U64MAX ∧
      tg.iops RANDW = U32MAX) →
  (let adj := may_dispatch_adjusted tg bio now
   let r := tg_may_dispatch tg bio now
   (r.1 = true ↔
     (bps_within adj bio bio.rw now ∧ bps_within adj bio RANDW now ∧
      iops_within adj bio.rw now ∧ iops_within adj RANDW now)) ∧
   (r.1 = false →
     r.2.1 =
       max (max (bps_wait_comp adj bio bio.rw now) (bps_wait_comp adj bio RANDW now))
         (max (iops_wait_comp adj bio.rw now) (iops_wait_comp adj RANDW now))))

/-- Claim C6 as stated: on a current slice with
`n = (now - slice_start)/S` completed widths, `throtl_trim_slice` with
`n > 0` subtracts `bps·S·n/HZ` and `iops·S·n/HZ` (saturating) and
advances `slice_start` by `n·S`; an expired slice or `n = 0` leaves the
counters and `slice_start` unchanged. -/
def claimC6 (tg : TG) (d : Fin 3) (now : Nat) : Prop :=
  let n := (now - tg.slice_start d) / throtl_slice
  let r := throtl_trim_slice tg d now
  ((tg.slice_start d ≤ now ∧ now ≤ tg.slice_end d) ∧ 0 < n →
    r.bytes_disp d = tg.bytes_disp d - tg.bps d * throtl_slice * n / HZ ∧
    r.io_disp d = tg.io_disp d - tg.iops d * throtl_slice * n / HZ ∧
    r.slice_start d = tg.slice_start d + n * throtl_slice) ∧
  (¬(tg.slice_start d ≤ now ∧ now ≤ tg.slice_end d) ∨ n = 0 →
    r.bytes_disp d = tg.bytes_disp d ∧ r.io_disp d = tg.io_disp d ∧
    r.slice_start d = tg.slice_start d)

/-- Claim C7 as stated: done when nothing is pending; otherwise the
pending timer is armed at the leftmost pending disptime and done is
returned iff forced or that disptime is in the future. -/
def claimC7 (sq : SQ) (force : Bool) (now : Nat) : Prop :=
  let r := throtl_schedule_next_dispatch sq force now
  (sq.nr_pending = 0 → r.1 = true) ∧
  (sq.nr_pending ≠ 0 →
    r.2.timer = some r.2.first_pending_disptime ∧
    (∀ k t, sq.pending.head? = some (k, t) → r.2.first_pending_disptime = k) ∧
    (r.1 = true ↔ (force = true ∨ now < r.2.first_pending_disptime)))

/-- Claim C3 as stated: for all eight config files, an unparsable line
yields `-EINVAL` and a partition reference yields `-EINVAL`. -/
def claimC3 (env : ConfEnv) (s : Sys) : Prop :=
  (blkg_conf_prep env none = .error EINVAL) ∧
  (blkg_fd_conf_prep env s none = .error EINVAL) ∧
  (∀ major minor v disk part, env.gendisk major minor = some (disk, part) → part ≠ 0 →
    blkg_conf_prep env (some (major, minor, v)) = .error EINVAL) ∧
  (∀ major minor fd_id v disk part, env.gendisk major minor = some (disk, part) → part ≠ 0 →
    blkg_fd_conf_prep env s (some (major, minor, fd_id, v)) = .error EINVAL)

/-- Claim C10 as stated: with both limits at `-1`, a trim on a current
slice with at least one whole width elapsed resets both consumption
counters to zero. -/
def claimC10 (tg : TG) (d : Fin 3) (now : Nat) : Prop :=
  tg.bps d = U64MAX → tg.iops d = U32MAX →
  (tg.slice_start d ≤ now ∧ now ≤ tg.slice_end d) →
  throtl_slice ≤ now - tg.slice_start d →
  (throtl_trim_slice tg d now).bytes_disp d = 0 ∧
  (throtl_trim_slice tg d now).io_disp d = 0

instance (tg : TG) (bio : Bio) (now : Nat) : Decidable (claimC5 tg bio now) := by
  unfold claimC5; infer_instance

instance (tg : TG) (d : Fin 3) (now : Nat) : Decidable (claimC6 tg d now) := by
  unfold claimC6; infer_instance

instance (tg : TG) (d : Fin 3) (now : Nat) : Decidable (claimC10 tg d now) := by
  unfold claimC10; infer_instance

/-! ## Concrete scenario states used by the evaluation, witness and
counterexample theorems -/

/-- C1 scenario: the physical device's throttle data. -/
def tdC1 : TD := ⟨SQ.empty, fun _ => 0⟩

/-- C1 scenario: the physical TG (arena index 0) with a finite READ bps
limit of 100 bytes/s on queue 0. -/
def tgC1phys : TG :=
  { TG.init with
    bps := fun d => if d = 0 then 100 else U64MAX
    has_rules := fun d => decide (d = (0 : Fin 3)) }

/-- C1 scenario: arena `[physical TG, fake header TG, fake member TG]`,
one device (queue 0), one fake device with id 7 whose only member is
queue 0. -/
def sysC1 : Sys := ⟨[tgC1phys, tg_init_fd, tg_init_fd], [tdC1], [⟨7, 1, [(0, 2)]⟩]⟩

/-- C1 scenario: a 1 MB READ bio for queue 0 (far over the 100 B/s
bucket). -/
def bioC1 : Bio := ⟨0, 1000000, false, 0⟩

/-- C2 scenario: fake-device header TG with `nr_queued = (5, 5)`. -/
def tgC2hdr : TG := { tg_init_fd with sq := { SQ.empty with nr_queued := fun _ => 5 } }

/-- C2 scenario: the only member TG with `nr_queued = (1, 0)`. -/
def tgC2mem : TG :=
  { tg_init_fd with sq := { SQ.empty with nr_queued := fun d => if d = 0 then 1 else 0 } }

/-- C2 scenario: the fake device (header at index 0, member at 1). -/
def fdC2 : FD := ⟨1, 0, [(0, 1)]⟩

def sysC2 : Sys := ⟨[tgC2hdr, tgC2mem], [], [fdC2]⟩

/-- C3 scenario: `MAJOR:MINOR = 8:1` resolves to disk 3, partition 1. -/
def envC3 : ConfEnv :=
  ⟨fun major minor => if major = 8 ∧ minor = 1 then some (3, 1) else none,
    fun _ => true, fun d => .ok d⟩

def sysC3 : Sys := ⟨[], [], []⟩

/-- C4 witness: a root-level TG with a finite READ bps limit. -/
def tgC4a : TG := { TG.init with bps := fun d => if d = 0 then 500 else U64MAX }

/-- C5 counterexample state: READ bps 10000 with 1001 bytes consumed and
READ iops 10 with 100 IOs consumed in the current slice `[1000, 1100]`;
the BPS wait is small (101 ticks) but the IOPS wait huge (10101
ticks). -/
def tgC5ce : TG :=
  { TG.init with
    bps := fun d => if d = 0 then 10000 else U64MAX
    iops := fun d => if d = 0 then 10 else U32MAX
    bytes_disp := fun d => if d = 0 then 1001 else 0
    io_disp := fun d => if d = 0 then 100 else 0
    slice_start := fun _ => 1000
    slice_end := fun _ => 1100 }

/-- C5: a 1-byte READ bio. -/
def bioC5 : Bio := ⟨0, 1, false, 0⟩

/-- C5 witness state: READ bps 1000000 and nothing consumed. -/
def tgC5w : TG := { TG.init with bps := fun d => if d = 0 then 1000000 else U64MAX }

/-- C5 witness: a 100-byte READ bio. -/
def bioC5w : Bio := ⟨0, 100, false, 0⟩

/-- C6 counterexample state: finite but tiny limits (`bps = 5`,
`iops = 5`) make both trim amounts zero at `n = 1`, so the source skips
the `slice_start` advance the claim requires. -/
def tgC6ce : TG :=
  { TG.init with
    bps := fun _ => 5
    iops := fun _ => 5
    bytes_disp := fun _ => 7
    io_disp := fun _ => 3
    slice_start := fun _ => 1000
    slice_end := fun _ => 1200 }

/-- C6 witness state: `bps = 8000`, `iops = 100`, slice `[1000, 1300]`. -/
def tgC6w : TG :=
  { TG.init with
    bps := fun _ => 8000
    iops := fun _ => 100
    bytes_disp := fun _ => 900
    io_disp := fun _ => 5
    slice_start := fun _ => 1000
    slice_end := fun _ => 1300 }

/-- C7 counterexample: one pending TG with disptime 5, stale
`first_pending_disptime`, timer unarmed. -/
def sqC7ce : SQ := ⟨fun _ => [], fun _ => 0, [(5, 1)], 1, 99, none⟩

/-- C10 counterexample state: both limits `-1`, `io_disp` at
`UINT_MAX`, one whole slice elapsed within a current slice. -/
def tgC10ce : TG :=
  { TG.init with
    io_disp := fun _ => U32MAX
    slice_start := fun _ => 0
    slice_end := fun _ => 200 }

/-- C10 witness state: both limits `-1` with realistic consumption. -/
def tgC10w : TG :=
  { TG.init with
    bytes_disp := fun _ => 12345
    io_disp := fun _ => 678
    slice_start := fun _ => 0
    slice_end := fun _ => 200 }

/-! # Theorems

Helper lemmas first, then one theorem per claim (with its witness or
counterexample where required). -/

/-- Field-level characterisation of `throtl_trim_slice`: an expired
slice is untouched; on a current slice `slice_end` is rounded up past
`now + throtl_slice`, and the counters and `slice_start` move exactly
when `n > 0` and at least one trim amount is non-zero. -/
theorem trim_slice_fields (tg : TG) (d : Fin 3) (now : Nat) :
    (¬(tg.slice_start d ≤ now ∧ now ≤ tg.slice_end d) →
      throtl_trim_slice tg d now = tg) ∧
    ((tg.slice_start d ≤ now ∧ now ≤ tg.slice_end d) →
      (throtl_trim_slice tg d now).slice_end d = roundup (now + throtl_slice) throtl_slice ∧
      (throtl_trim_slice tg d now).slice_start d =
        (if (now - tg.slice_start d) / throtl_slice = 0 ∨
            (tg.bps d * throtl_slice * ((now - tg.slice_start d) / throtl_slice) % U64 / HZ = 0 ∧
              tg.iops d * throtl_slice * ((now - tg.slice_start d) / throtl_slice) % U64 / HZ = 0)
          then tg.slice_start d
          else tg.slice_start d + (now - tg.slice_start d) / throtl_slice * throtl_slice) ∧
      (throtl_trim_slice tg d now).bytes_disp d =
        (if (now - tg.slice_start d) / throtl_slice = 0 ∨
            (tg.bps d * throtl_slice * ((now - tg.slice_start d) / throtl_slice) % U64 / HZ = 0 ∧
              tg.iops d * throtl_slice * ((now - tg.slice_start d) / throtl_slice) % U64 / HZ = 0)
          then tg.bytes_disp d
          else tg.bytes_disp d -
            tg.bps d * throtl_slice * ((now - tg.slice_start d) / throtl_slice) % U64 / HZ) ∧
      (throtl_trim_slice tg d now).io_disp d =
        (if (now - tg.slice_start d) / throtl_slice = 0 ∨
            (tg.bps d * throtl_slice * ((now - tg.slice_start d) / throtl_slice) % U64 / HZ = 0 ∧
              tg.iops d * throtl_slice * ((now - tg.slice_start d) / throtl_slice) % U64 / HZ = 0)
          then tg.io_disp d
          else tg.io_disp d -
            tg.iops d * throtl_slice * ((now - tg.slice_start d) / throtl_slice) % U64 / HZ)) := by
  constructor
  · intro h
    unfold throtl_trim_slice throtl_slice_used
    rw [if_pos]
    simp only [Bool.not_eq_true', Bool.and_eq_false_iff]
    rcases Decidable.not_and_iff_or_not.mp h with h1 | h1
    · left; simp [decide_eq_false_iff_not.mpr h1]
    · right; simp [decide_eq_false_iff_not.mpr h1]
  · intro h
    unfold throtl_trim_slice throtl_slice_used throtl_set_slice_end
    rw [if_neg (by simp [h.1, h.2])]
    simp only [Function.update_same]
    by_cases hn : (now - tg.slice_start d) / throtl_slice = 0
    · simp [hn]
    · rw [if_neg hn]
      by_cases hz : tg.bps d * throtl_slice * ((now - tg.slice_start d) / throtl_slice) % U64 /
            HZ = 0 ∧
          tg.iops d * throtl_slice * ((now - tg.slice_start d) / throtl_slice) % U64 / HZ = 0
      · simp [hn, hz, hz.1, hz.2]
      · rw [if_neg hz]
        simp [hn, hz, Function.update_same]
        constructor <;> omega

/-- `(u64)-1 * k` wraps to `2^64 - k` for `0 < k < 2^64`. -/
theorem u64max_mul_mod (k : Nat) (h0 : 0 < k) (h1 : k < U64) :
    U64MAX * k % U64 = U64 - k := by
  have hk : 1 ≤ k := h0
  have hku : k ≤ U64 := le_of_lt h1
  have hU : 1 ≤ U64 := by unfold U64; norm_num
  have h2 : U64MAX * k = (k - 1) * U64 + (U64 - k) := by
    unfold U64MAX
    zify [hk, hku, hU]
    ring
  rw [h2, Nat.mul_comm (k - 1) U64, Nat.mul_add_mod]
  exact Nat.mod_eq_of_lt (by omega)

/-- `tg_with_in_bps_limit` composes the rw and RANDW BPS waits as their
maximum (a passing layer contributing zero) and succeeds iff that
maximum is zero. -/
theorem tg_with_in_bps_limit_eq (tg : TG) (bio : Bio) (now : Nat) :
    tg_with_in_bps_limit tg bio now =
      ((max (bps_wait_comp tg bio bio.rw now) (bps_wait_comp tg bio RANDW now) == 0),
        max (bps_wait_comp tg bio bio.rw now) (bps_wait_comp tg bio RANDW now)) := by
  unfold tg_with_in_bps_limit bps_wait_comp bps_within
  by_cases hA : tg.bps bio.rw = U64MAX <;>
    by_cases hC : tg.bps RANDW = U64MAX <;>
    by_cases hB : (tg.bytes_disp bio.rw + bio.size) % U64 ≤ bytes_allowed tg bio.rw now <;>
    by_cases hD : (tg.bytes_disp RANDW + bio.size) % U64 ≤ bytes_allowed tg RANDW now <;>
    simp [hA, hB, hC, hD]

/-- The IOPS analogue of `tg_with_in_bps_limit_eq`. -/
theorem tg_with_in_iops_limit_eq (tg : TG) (bio : Bio) (now : Nat) :
    tg_with_in_iops_limit tg bio now =
      ((max (iops_wait_comp tg bio.rw now) (iops_wait_comp tg RANDW now) == 0),
        max (iops_wait_comp tg bio.rw now) (iops_wait_comp tg RANDW now)) := by
  unfold tg_with_in_iops_limit iops_wait_comp iops_within
  by_cases hA : tg.iops bio.rw = U32MAX <;>
    by_cases hC : tg.iops RANDW = U32MAX <;>
    by_cases hB : (tg.io_disp bio.rw + 1) % U32 ≤ io_allowed tg bio.rw now <;>
    by_cases hD : (tg.io_disp RANDW + 1) % U32 ≤ io_allowed tg RANDW now <;>
    simp [hA, hB, hC, hD]

/-- The rounding adjustment `jiffy_elapsed_rnd - jiffy_elapsed` never
exceeds one slice width. -/
theorem rnd_sub_le (tg : TG) (d : Fin 3) (now : Nat) :
    jiffy_elapsed_rnd tg d now - (now - tg.slice_start d) ≤ throtl_slice := by
  unfold jiffy_elapsed_rnd roundup throtl_slice HZ
  by_cases h : now - tg.slice_start d = 0 <;> simp [h] <;> omega

/-- An over-limit BPS wait is at least one tick (given the 64-bit
product cannot wrap). -/
theorem bps_over_wait_pos (tg : TG) (bio : Bio) (d : Fin 3) (now : Nat)
    (h : (tg.bytes_disp d + bio.size) * HZ + throtl_slice < U64) :
    1 ≤ bps_over_wait tg bio d now := by
  unfold bps_over_wait
  dsimp only
  have hmle : (tg.bytes_disp d + bio.size) % U64 ≤ tg.bytes_disp d + bio.size :=
    Nat.mod_le _ _
  have hextra : (tg.bytes_disp d + bio.size) % U64 - bytes_allowed tg d now ≤
      tg.bytes_disp d + bio.size := by omega
  have hHZ1 : 1 ≤ HZ := by unfold HZ; omega
  have hprod : ((tg.bytes_disp d + bio.size) % U64 - bytes_allowed tg d now) * HZ ≤
      (tg.bytes_disp d + bio.size) * HZ := Nat.mul_le_mul_right _ hextra
  rw [Nat.mod_eq_of_lt
    (a := ((tg.bytes_disp d + bio.size) % U64 - bytes_allowed tg d now) * HZ) (by omega)]
  generalize hjw_def :
    ((tg.bytes_disp d + bio.size) % U64 - bytes_allowed tg d now) * HZ / tg.bps d = jw
  have hjw : jw ≤ ((tg.bytes_disp d + bio.size) % U64 - bytes_allowed tg d now) * HZ := by
    rw [← hjw_def]; exact Nat.div_le_self _ _
  have hrnd := rnd_sub_le tg d now
  have hS100 : throtl_slice = 100 := rfl
  have hU64big : 1000000 ≤ U64 := by unfold U64; norm_num
  rw [Nat.mod_eq_of_lt]
  · split <;> omega
  · split <;> omega

/-- An over-limit IOPS wait is at least one tick (given the 32-bit
products cannot wrap). -/
theorem iops_over_wait_pos (tg : TG) (d : Fin 3) (now : Nat)
    (h : (tg.io_disp d + 1) * HZ + 1 < U32) :
    1 ≤ iops_over_wait tg d now := by
  unfold iops_over_wait
  dsimp only
  have hHZ1 : 1 ≤ HZ := by unfold HZ; omega
  have h0 : tg.io_disp d + 1 ≤ (tg.io_disp d + 1) * HZ :=
    Nat.le_mul_of_pos_right _ (by omega)
  have h1 : tg.io_disp d + 1 < U32 := by omega
  rw [Nat.mod_eq_of_lt h1]
  rw [Nat.mod_eq_of_lt (a := (tg.io_disp d + 1) * HZ) (by omega)]
  generalize hjw_def : (tg.io_disp d + 1) * HZ / tg.iops d = jw
  have h4 : jw ≤ (tg.io_disp d + 1) * HZ := by
    rw [← hjw_def]; exact Nat.div_le_self _ _
  rw [Nat.mod_eq_of_lt (by omega)]
  split <;> omega

theorem tg_with_in_bps_limit_fst (tg : TG) (bio : Bio) (now : Nat) :
    (tg_with_in_bps_limit tg bio now).1 = ((tg_with_in_bps_limit tg bio now).2 == 0) := rfl

theorem tg_with_in_iops_limit_fst (tg : TG) (bio : Bio) (now : Nat) :
    (tg_with_in_iops_limit tg bio now).1 = ((tg_with_in_iops_limit tg bio now).2 == 0) := rfl

/-- Control-flow characterisation of `tg_may_dispatch` off the
unlimited fast path: the verdict is the conjunction of the two checkers
on the slice-adjusted state, and the returned wait reflects the
short-circuit of `&&` (the IOPS checker never runs when BPS fails). -/
theorem tg_may_dispatch_result (tg : TG) (bio : Bio) (now : Nat)
    (hlim : ¬(tg.bps bio.rw = U64MAX ∧ tg.iops bio.rw = U32MAX ∧
        tg.bps RANDW = U64MAX ∧ tg.iops RANDW = U32MAX)) :
    (tg_may_dispatch tg bio now).1 =
      ((tg_with_in_bps_limit (may_dispatch_adjusted tg bio now) bio now).1 &&
        (tg_with_in_iops_limit (may_dispatch_adjusted tg bio now) bio now).1) ∧
    (tg_may_dispatch tg bio now).2.1 =
      (if (tg_may_dispatch tg bio now).1 then 0
        else if (tg_with_in_bps_limit (may_dispatch_adjusted tg bio now) bio now).1
        then (tg_with_in_iops_limit (may_dispatch_adjusted tg bio now) bio now).2
        else (tg_with_in_bps_limit (may_dispatch_adjusted tg bio now) bio now).2) := by
  have hfst := tg_with_in_bps_limit_fst (may_dispatch_adjusted tg bio now) bio now
  unfold tg_may_dispatch may_dispatch_adjusted at *
  rw [if_neg hlim]
  dsimp only
  by_cases h1 : (tg_with_in_bps_limit
      (may_dispatch_adjust (may_dispatch_adjust tg bio.rw now) RANDW now) bio now).1 <;>
    by_cases h2 : (tg_with_in_iops_limit
      (may_dispatch_adjust (may_dispatch_adjust tg bio.rw now) RANDW now) bio now).1 <;>
    simp [h1, h2] <;>
    rw [h1] at hfst <;>
    simp at hfst <;>
    simp [hfst]

/-- The slice adjustment leaves each consumption counter alone or
zeroes it (a renewed slice starts from zero). -/
theorem may_dispatch_adjust_disp (tg : TG) (d' d : Fin 3) (now : Nat) :
    ((may_dispatch_adjust tg d' now).bytes_disp d = tg.bytes_disp d ∨
      (may_dispatch_adjust tg d' now).bytes_disp d = 0) ∧
    ((may_dispatch_adjust tg d' now).io_disp d = tg.io_disp d ∨
      (may_dispatch_adjust tg d' now).io_disp d = 0) := by
  unfold may_dispatch_adjust throtl_start_new_slice throtl_extend_slice throtl_set_slice_end
  split
  · constructor <;> rcases eq_or_ne d d' with h | h <;> simp [Function.update_apply, h]
  · split
    · constructor <;> simp
    · constructor <;> simp

/-- The chain recomputation step: a recomputed TG's `has_rules` is its
parent's disjoined with its own finite limits, folded along the chain. -/
theorem recompute_has_rules_aux (chain : List TG) :
    ∀ (parent : Option TG) (d : Fin 3) (i : Nat) (tg : TG),
      (recompute_has_rules parent chain).get? i = some tg →
      (tg.has_rules d = true ↔
        ((∃ p, parent = some p ∧ p.has_rules d = true) ∨
          ∃ a ∈ chain.take (i + 1), hasFiniteLimit a d = true)) := by
  induction chain with
  | nil => intro parent d i tg h; simp [recompute_has_rules] at h
  | cons hd rest ih =>
    intro parent d i tg h
    match i with
    | 0 =>
      simp only [recompute_has_rules, List.get?] at h
      injection h with h
      subst h
      simp only [List.take, List.mem_cons]
      unfold tg_update_has_rules hasFiniteLimit
      cases parent with
      | none => simp
      | some p => simp
    | i + 1 =>
      simp only [recompute_has_rules, List.get?] at h
      have h2 := ih (some (tg_update_has_rules parent hd)) d i tg h
      rw [h2]
      constructor
      · rintro (⟨p, hp, hrules⟩ | ⟨a, ha, hfin⟩)
        · injection hp with hp
          subst hp
          unfold tg_update_has_rules at hrules
          simp only [Bool.or_eq_true, decide_eq_true_eq] at hrules
          rcases hrules with hrules | hrules
          · cases parent with
            | none => simp at hrules
            | some pp => exact Or.inl ⟨pp, rfl, hrules⟩
          · refine Or.inr ⟨hd, ?_, ?_⟩
            · simp [List.take]
            · unfold hasFiniteLimit; simp [hrules]
        · exact Or.inr ⟨a, by simp [List.take, ha], hfin⟩
      · rintro (⟨p, hp, hrules⟩ | ⟨a, ha, hfin⟩)
        · refine Or.inl ⟨tg_update_has_rules parent hd, rfl, ?_⟩
          unfold tg_update_has_rules
          subst hp
          simp [hrules]
        · simp only [List.take, List.mem_cons] at ha
          rcases ha with ha | ha
          · rw [ha] at hfin
            refine Or.inl ⟨tg_update_has_rules parent hd, rfl, ?_⟩
            unfold hasFiniteLimit at hfin
            unfold tg_update_has_rules
            simp only [Bool.or_eq_true, decide_eq_true_eq] at hfin ⊢
            exact Or.inr hfin
          · exact Or.inr ⟨a, ha, hfin⟩

/-! ## Claim C1 -/

/-- Claim C1 (evaluation at the failing input): a READ bio over the
physical TG's token bucket does return `throttled = true`, but the code
queues it through `throtl_add_bio_fd_tg` on the fake-device member TG
reached via the uninitialised `fake_d` local — the physical TG's
service queue and qnodes stay empty while the member TG (arena index 2)
receives the bio and the header counter is bumped, contradicting the
claim (and the source's own `/* out-of-limit, queue to @tg */`
comment). -/
theorem blk_throtl_bio_over_limit_queues_on_fd_member :
    (blk_throtl_bio sysC1 0 (some 0) (some 0) (some 0) 1000 bioC1).map (fun r => r.1) =
      some true ∧
    (blk_throtl_bio sysC1 0 (some 0) (some 0) (some 0) 1000 bioC1).map
      (fun r => ((getTG r.2.1 0).sq.nr_queued 0, (getTG r.2.1 2).sq.nr_queued 0,
        (getTG r.2.1 1).sq.nr_queued 0)) = some (0, 1, 1) ∧
    (blk_throtl_bio sysC1 0 (some 0) (some 0) (some 0) 1000 bioC1).map
      (fun r => ((getTG r.2.1 0).qnode_self 0, (getTG r.2.1 0).qnode_parent 0,
        (getTG r.2.1 2).qnode_self 0)) = some ([], [], [bioC1]) := by
  refine ⟨by decide, by decide, by decide⟩

/-! ## Claim C2 -/

/-- Claim C2 (evaluation at the failing input): with header
`nr_queued = (5, 5)` and a single member at `(1, 0)`,
`update_fd_queuenr` stores 1 into the header's WRITE counter — the
accumulator still holds the READ total — although the members' WRITE
sum is 0. -/
theorem update_fd_queuenr_write_mixes_read_total :
    (getTG (update_fd_queuenr sysC2 fdC2) 0).sq.nr_queued 1 = 1 ∧
    fdC2.members.foldl (fun acc m => acc + (getTG sysC2 m.2).sq.nr_queued 1) 0 = 0 := by
  decide

/-! ## Claim C3 -/

/-- Claim C3 is false as stated: `blkg_fd_conf_prep` (the hybrid files)
accepts a well-formed line that references partition 1 of device 8:1. -/
theorem claimC3_counterexample : ¬ claimC3 envC3 sysC3 := by
  intro h
  have h4 := h.2.2.2 8 1 7 100 3 1 rfl (by omega)
  have hok : (blkg_fd_conf_prep envC3 sysC3 (some (8, 1, 7, 100))).toOption.isSome =
      true := rfl
  rw [h4] at hok
  simp [Except.toOption] at hok

/-- Claim C3 (amended): every parse failure returns `-EINVAL` on all
eight files, and a partition reference is rejected with `-EINVAL` by the
six per-device files; the two hybrid fake-device files do not reject
partitions (their check is compiled out) and succeed whenever the
device exists. -/
theorem conf_prep_error_spec (env : ConfEnv) (s : Sys) :
    (blkg_conf_prep env none = .error EINVAL) ∧
    (blkg_fd_conf_prep env s none = .error EINVAL) ∧
    (∀ major minor v disk part, env.gendisk major minor = some (disk, part) → part ≠ 0 →
      blkg_conf_prep env (some (major, minor, v)) = .error EINVAL) ∧
    (∀ major minor fd_id v disk part, env.gendisk major minor = some (disk, part) →
      ∃ res, blkg_fd_conf_prep env s (some (major, minor, fd_id, v)) = .ok res) := by
  refine ⟨rfl, rfl, ?_, ?_⟩
  · intro major minor v disk part h hp
    simp only [blkg_conf_prep]
    rw [h]
    simp [hp]
  · intro major minor fd_id v disk part h
    simp only [blkg_fd_conf_prep]
    rw [h]
    exact ⟨_, rfl⟩

theorem conf_prep_error_spec_witness :
    blkg_conf_prep envC3 (some (8, 1, 100)) = .error EINVAL ∧
    (∃ res, blkg_fd_conf_prep envC3 sysC3 (some (8, 1, 7, 100)) = .ok res) := by
  have h := conf_prep_error_spec envC3 sysC3
  exact ⟨h.2.2.1 8 1 100 3 1 rfl (by omega), h.2.2.2 8 1 7 100 3 1 rfl⟩

/-! ## Claim C4 -/

/-- Claim C4: after the recomputation paths run, `has_rules[d]` is true
iff the TG itself or some ancestor on its path to the device root has a
finite limit for `d`.  For the regular pre-order walk this is the chain
theorem (element `i` of a recomputed root-first chain sees exactly its
own and its ancestors' limits); for the fake-device path the header and
every member TG sit directly under a device root (no ancestor TGs), and
their recomputed `has_rules` equals their own (copied) finite-limit
test. -/
theorem has_rules_iff_finite_on_path :
    (∀ (chain : List TG) (d : Fin 3) (i : Nat) (tg : TG),
      (recompute_has_rules none chain).get? i = some tg →
      (tg.has_rules d = true ↔ ∃ a ∈ chain.take (i + 1), hasFiniteLimit a d = true)) ∧
    (∀ (hdr : TG) (members : List TG) (d : Fin 3),
      ((tg_fd_update_has_rules_recursively hdr members).1.has_rules d = true ↔
        hasFiniteLimit (tg_fd_update_has_rules_recursively hdr members).1 d = true) ∧
      (∀ m ∈ (tg_fd_update_has_rules_recursively hdr members).2,
        m.has_rules d = true ↔ hasFiniteLimit m d = true)) := by
  constructor
  · intro chain d i tg h
    rw [recompute_has_rules_aux chain none d i tg h]
    simp
  · intro hdr members d
    constructor
    · unfold tg_fd_update_has_rules_recursively hasFiniteLimit
      simp
    · intro m hm
      unfold tg_fd_update_has_rules_recursively at hm
      simp only [List.mem_map] at hm
      obtain ⟨m0, hm0, hmeq⟩ := hm
      rw [← hmeq]
      unfold hasFiniteLimit
      simp

theorem has_rules_iff_finite_on_path_witness :
    (tg_update_has_rules (some (tg_update_has_rules none tgC4a)) TG.init).has_rules 0 =
      true := by
  have h := has_rules_iff_finite_on_path
  exact (h.1 [tgC4a, TG.init] 0 1 _ rfl).mpr ⟨tgC4a, by simp, by decide⟩

/-! ## Claim C5 -/

/-- Claim C5 is false as stated: at `tgC5ce` both the BPS and IOPS READ
limits are exceeded, but because `&&` short-circuits, the returned wait
is the BPS wait (101 ticks) alone, not the max with the IOPS wait
(10101 ticks) the claim requires. -/
theorem claimC5_counterexample : ¬ claimC5 tgC5ce bioC5 1000 := by decide

/-- Claim C5 (amended): `tg_may_dispatch` permits dispatch iff the bio
satisfies the rw and RANDW limits for both BPS and IOPS (evaluated on
the slice-adjusted state); on rejection the returned wait equals the
BPS component (max of the rw and RANDW BPS waits) when the BPS check
fails — the IOPS waits are not computed in that case — and otherwise
the IOPS component (max of the rw and RANDW IOPS waits).  The bound
hypotheses keep the 64-bit/32-bit wait arithmetic below its modulus;
they hold for any physically meaningful consumption. -/
theorem tg_may_dispatch_spec (tg : TG) (bio : Bio) (now : Nat)
    (hlim : ¬(tg.bps bio.rw = U64MAX ∧ tg.iops bio.rw = U32MAX ∧
        tg.bps RANDW = U64MAX ∧ tg.iops RANDW = U32MAX))
    (HB : ∀ d : Fin 3, (tg.bytes_disp d + bio.size) * HZ + throtl_slice < U64)
    (HI : ∀ d : Fin 3, (tg.io_disp d + 1) * HZ + 1 < U32) :
    ((tg_may_dispatch tg bio now).1 = true ↔
      (bps_within (may_dispatch_adjusted tg bio now) bio bio.rw now ∧
        bps_within (may_dispatch_adjusted tg bio now) bio RANDW now ∧
        iops_within (may_dispatch_adjusted tg bio now) bio.rw now ∧
        iops_within (may_dispatch_adjusted tg bio now) RANDW now)) ∧
    ((tg_may_dispatch tg bio now).1 = false →
      (tg_may_dispatch tg bio now).2.1 =
        if bps_within (may_dispatch_adjusted tg bio now) bio bio.rw now ∧
            bps_within (may_dispatch_adjusted tg bio now) bio RANDW now
        then max (iops_wait_comp (may_dispatch_adjusted tg bio now) bio.rw now)
            (iops_wait_comp (may_dispatch_adjusted tg bio now) RANDW now)
        else max (bps_wait_comp (may_dispatch_adjusted tg bio now) bio bio.rw now)
            (bps_wait_comp (may_dispatch_adjusted tg bio now) bio RANDW now)) := by
  have hadj1 : ∀ d, (may_dispatch_adjusted tg bio now).bytes_disp d = tg.bytes_disp d ∨
      (may_dispatch_adjusted tg bio now).bytes_disp d = 0 := by
    intro d
    unfold may_dispatch_adjusted
    rcases (may_dispatch_adjust_disp (may_dispatch_adjust tg bio.rw now) RANDW d now).1 with
      h | h <;> rw [h]
    · exact (may_dispatch_adjust_disp tg bio.rw d now).1
    · exact Or.inr rfl
  have hadj2 : ∀ d, (may_dispatch_adjusted tg bio now).io_disp d = tg.io_disp d ∨
      (may_dispatch_adjusted tg bio now).io_disp d = 0 := by
    intro d
    unfold may_dispatch_adjusted
    rcases (may_dispatch_adjust_disp (may_dispatch_adjust tg bio.rw now) RANDW d now).2 with
      h | h <;> rw [h]
    · exact (may_dispatch_adjust_disp tg bio.rw d now).2
    · exact Or.inr rfl
  have HB' : ∀ d, ((may_dispatch_adjusted tg bio now).bytes_disp d + bio.size) * HZ +
      throtl_slice < U64 := by
    intro d
    have hmono : bio.size * HZ ≤ (tg.bytes_disp d + bio.size) * HZ :=
      Nat.mul_le_mul_right _ (by omega)
    rcases hadj1 d with h | h <;> rw [h]
    · exact HB d
    · have := HB d; simp only [Nat.zero_add]; omega
  have HI' : ∀ d, ((may_dispatch_adjusted tg bio now).io_disp d + 1) * HZ + 1 < U32 := by
    intro d
    have hmono : 1 * HZ ≤ (tg.io_disp d + 1) * HZ :=
      Nat.mul_le_mul_right _ (by omega)
    rcases hadj2 d with h | h <;> rw [h]
    · exact HI d
    · have := HI d; simp only [Nat.zero_add]; omega
  have hcompb : ∀ d, (bps_wait_comp (may_dispatch_adjusted tg bio now) bio d now = 0 ↔
      bps_within (may_dispatch_adjusted tg bio now) bio d now) := by
    intro d
    unfold bps_wait_comp
    split
    next hwithin => exact iff_of_true rfl hwithin
    next hwithin =>
      have hpos := bps_over_wait_pos (may_dispatch_adjusted tg bio now) bio d now (HB' d)
      exact iff_of_false (by omega) hwithin
  have hcompi : ∀ d, (iops_wait_comp (may_dispatch_adjusted tg bio now) d now = 0 ↔
      iops_within (may_dispatch_adjusted tg bio now) d now) := by
    intro d
    unfold iops_wait_comp
    split
    next hwithin => exact iff_of_true rfl hwithin
    next hwithin =>
      have hpos := iops_over_wait_pos (may_dispatch_adjusted tg bio now) d now (HI' d)
      exact iff_of_false (by omega) hwithin
  obtain ⟨hr1, hr2⟩ := tg_may_dispatch_result tg bio now hlim
  have hbeq := tg_with_in_bps_limit_eq (may_dispatch_adjusted tg bio now) bio now
  have hieq := tg_with_in_iops_limit_eq (may_dispatch_adjusted tg bio now) bio now
  rw [hbeq, hieq] at hr1
  rw [hbeq, hieq] at hr2
  simp only at hr1 hr2
  constructor
  · rw [hr1]
    simp only [Bool.and_eq_true, beq_iff_eq, Nat.max_eq_zero_iff]
    rw [hcompb bio.rw, hcompb RANDW, hcompi bio.rw, hcompi RANDW]
    tauto
  · intro hf
    rw [hr1] at hf
    rw [hr2, hr1, hf, if_neg (by simp)]
    by_cases hbp : bps_within (may_dispatch_adjusted tg bio now) bio bio.rw now ∧
        bps_within (may_dispatch_adjusted tg bio now) bio RANDW now
    · rw [if_pos hbp]
      have hb0 : max (bps_wait_comp (may_dispatch_adjusted tg bio now) bio bio.rw now)
          (bps_wait_comp (may_dispatch_adjusted tg bio now) bio RANDW now) = 0 := by
        rw [Nat.max_eq_zero_iff, hcompb bio.rw, hcompb RANDW]
        exact hbp
      simp [hb0]
    · rw [if_neg hbp]
      have hb0 : ¬(max (bps_wait_comp (may_dispatch_adjusted tg bio now) bio bio.rw now)
          (bps_wait_comp (may_dispatch_adjusted tg bio now) bio RANDW now) = 0) := by
        rw [Nat.max_eq_zero_iff, hcompb bio.rw, hcompb RANDW]
        exact hbp
      simp [beq_iff_eq, hb0]

theorem tg_may_dispatch_spec_witness :
    (tg_may_dispatch tgC5w bioC5w 0).1 = true := by
  have h := tg_may_dispatch_spec tgC5w bioC5w 0 (by decide) (by decide) (by decide)
  exact h.1.mpr (by decide)

/-! ## Claim C6 -/

/-- Claim C6 is false as stated: at `tgC6ce` (finite limits 5 bps and
5 iops), one whole slice width has elapsed on a current slice, yet both
trim amounts floor to zero and the source returns early, leaving
`slice_start` where it was instead of advancing it by `n·S`. -/
theorem claimC6_counterexample : ¬ claimC6 tgC6ce 0 1100 := by decide

/-- Claim C6 (amended): on a current slice (the `BUG_ON` entry
assertion `slice_start ≤ slice_end` as hypothesis), `throtl_trim_slice`
rounds `slice_end` up past `now + S`; with `n = (now - slice_start)/S`
it subtracts `bps·S·n/HZ` bytes and `iops·S·n/HZ` IOs (64-bit products,
saturating at 0) and advances `slice_start` by exactly `n·S` — but only
when `n > 0` *and* at least one trim amount is non-zero; when the slice
is expired the state is untouched, and when `n = 0` or both trim
amounts are zero the counters and `slice_start` are unchanged. -/
theorem throtl_trim_slice_spec (tg : TG) (d : Fin 3) (now : Nat)
    (hse : tg.slice_start d ≤ tg.slice_end d) :
    (¬(tg.slice_start d ≤ now ∧ now ≤ tg.slice_end d) →
      throtl_trim_slice tg d now = tg) ∧
    ((tg.slice_start d ≤ now ∧ now ≤ tg.slice_end d) →
      (throtl_trim_slice tg d now).slice_end d = roundup (now + throtl_slice) throtl_slice ∧
      (throtl_trim_slice tg d now).slice_start d =
        (if (now - tg.slice_start d) / throtl_slice = 0 ∨
            (tg.bps d * throtl_slice * ((now - tg.slice_start d) / throtl_slice) % U64 / HZ = 0 ∧
              tg.iops d * throtl_slice * ((now - tg.slice_start d) / throtl_slice) % U64 / HZ = 0)
          then tg.slice_start d
          else tg.slice_start d + (now - tg.slice_start d) / throtl_slice * throtl_slice) ∧
      (throtl_trim_slice tg d now).bytes_disp d =
        (if (now - tg.slice_start d) / throtl_slice = 0 ∨
            (tg.bps d * throtl_slice * ((now - tg.slice_start d) / throtl_slice) % U64 / HZ = 0 ∧
              tg.iops d * throtl_slice * ((now - tg.slice_start d) / throtl_slice) % U64 / HZ = 0)
          then tg.bytes_disp d
          else tg.bytes_disp d -
            tg.bps d * throtl_slice * ((now - tg.slice_start d) / throtl_slice) % U64 / HZ) ∧
      (throtl_trim_slice tg d now).io_disp d =
        (if (now - tg.slice_start d) / throtl_slice = 0 ∨
            (tg.bps d * throtl_slice * ((now - tg.slice_start d) / throtl_slice) % U64 / HZ = 0 ∧
              tg.iops d * throtl_slice * ((now - tg.slice_start d) / throtl_slice) % U64 / HZ = 0)
          then tg.io_disp d
          else tg.io_disp d -
            tg.iops d * throtl_slice * ((now - tg.slice_start d) / throtl_slice) % U64 / HZ)) :=
  trim_slice_fields tg d now

theorem throtl_trim_slice_spec_witness :
    (throtl_trim_slice tgC6w 0 1250).slice_start 0 = 1200 ∧
    (throtl_trim_slice tgC6w 0 1250).bytes_disp 0 = 0 ∧
    (throtl_trim_slice tgC6w 0 1250).io_disp 0 = 0 := by
  have h := (throtl_trim_slice_spec tgC6w 0 1250 (by decide)).2 (by decide)
  refine ⟨?_, ?_, ?_⟩
  · rw [h.2.1]; decide
  · rw [h.2.2.1]; decide
  · rw [h.2.2.2]; decide

/-! ## Claim C7 -/

/-- Claim C7 is false as stated: with one pending TG and a disptime not
in the future, `throtl_schedule_next_dispatch` returns `done = false`
without arming the pending timer, while the claim requires the timer to
be armed whenever children are pending. -/
theorem claimC7_counterexample : ¬ claimC7 sqC7ce false 10 := by
  intro h
  have h2 := (h.2 (by decide)).1
  simp [throtl_schedule_next_dispatch, update_min_dispatch_time, throtl_rb_first,
    throtl_schedule_pending_timer, sqC7ce] at h2

/-- Claim C7 (amended): with nothing pending the call returns
`done = true` leaving the queue untouched; otherwise
`first_pending_disptime` becomes the leftmost pending TG's disptime
`k`, `done = true` iff forced or `k` is in the future, the timer is
armed at `k` exactly when `done = true`, and on `done = false` the
timer (and the pending tree) is left unchanged. -/
theorem throtl_schedule_next_dispatch_spec (sq : SQ) (force : Bool) (now : Nat) :
    ((sq.nr_pending = 0 → throtl_schedule_next_dispatch sq force now = (true, sq))) ∧
    (sq.nr_pending ≠ 0 → ∀ k t, sq.pending.head? = some (k, t) →
      (throtl_schedule_next_dispatch sq force now).2.first_pending_disptime = k ∧
      ((throtl_schedule_next_dispatch sq force now).1 = true ↔
        (force = true ∨ now < k)) ∧
      ((throtl_schedule_next_dispatch sq force now).1 = true →
        (throtl_schedule_next_dispatch sq force now).2.timer = some k) ∧
      ((throtl_schedule_next_dispatch sq force now).1 = false →
        (throtl_schedule_next_dispatch sq force now).2.timer = sq.timer) ∧
      (throtl_schedule_next_dispatch sq force now).2.pending = sq.pending ∧
      (throtl_schedule_next_dispatch sq force now).2.nr_pending = sq.nr_pending) := by
  constructor
  · intro h
    simp [throtl_schedule_next_dispatch, h]
  · intro h k t hk
    rcases Bool.eq_false_or_eq_true force with hf | hf <;>
      by_cases hlt : now < k <;>
      simp [throtl_schedule_next_dispatch, update_min_dispatch_time, throtl_rb_first,
        throtl_schedule_pending_timer, h, hk, hf, hlt]

theorem throtl_schedule_next_dispatch_spec_witness :
    (throtl_schedule_next_dispatch ⟨fun _ => [], fun _ => 0, [(5, 1)], 1, 99, none⟩
      false 3).1 = true ∧
    (throtl_schedule_next_dispatch ⟨fun _ => [], fun _ => 0, [(5, 1)], 1, 99, none⟩
      false 3).2.timer = some 5 := by
  have h := (throtl_schedule_next_dispatch_spec
    ⟨fun _ => [], fun _ => 0, [(5, 1)], 1, 99, none⟩ false 3).2 (by decide) 5 1 rfl
  have hdone := h.2.1.mpr (Or.inr (by omega))
  exact ⟨hdone, h.2.2.1 hdone⟩

/-! ## Claim C8 -/

/-- Claim C8: `throtl_pop_queued` returns `none` on an empty list;
otherwise it pops the head qnode's head bio; a qnode that becomes empty
is unlinked, with the owning TG handed to the caller through
`tg_to_put` when a slot was passed, and otherwise released by the
function itself exactly when the TG is not a fake-device TG (fake TGs
hold no per-qnode reference); a still non-empty qnode is moved to the
tail so popping round-robins across source qnodes. -/
theorem throtl_pop_queued_spec (queued : List Qnode) (want : Bool) :
    (queued = [] → throtl_pop_queued queued want = (none, [], none, none)) ∧
    (∀ qn rest, queued = qn :: rest →
      (throtl_pop_queued queued want).1 = qn.bios.head? ∧
      (qn.bios.tail = [] →
        (throtl_pop_queued queued want).2.1 = rest ∧
        (want = true →
          (throtl_pop_queued queued want).2.2.1 = some qn.tgId ∧
          (throtl_pop_queued queued want).2.2.2 = none) ∧
        (want = false →
          (throtl_pop_queued queued want).2.2.1 = none ∧
          (throtl_pop_queued queued want).2.2.2 =
            (if qn.tgFake then none else some qn.tgId))) ∧
      (qn.bios.tail ≠ [] →
        (throtl_pop_queued queued want).2.1 = rest ++ [{ qn with bios := qn.bios.tail }] ∧
        (throtl_pop_queued queued want).2.2.1 = none ∧
        (throtl_pop_queued queued want).2.2.2 = none)) := by
  constructor
  · intro h; subst h; rfl
  · intro qn rest h
    subst h
    by_cases ht : qn.bios.tail = [] <;>
      by_cases hw : want = true <;>
      simp_all [throtl_pop_queued, List.isEmpty_iff]

theorem throtl_pop_queued_spec_witness :
    (throtl_pop_queued [⟨[⟨0, 512, false, 0⟩], 4, false⟩] false).1 =
      some ⟨0, 512, false, 0⟩ ∧
    (throtl_pop_queued [⟨[⟨0, 512, false, 0⟩], 4, false⟩] false).2.1 = [] ∧
    (throtl_pop_queued [⟨[⟨0, 512, false, 0⟩], 4, false⟩] false).2.2.2 = some 4 := by
  have h := (throtl_pop_queued_spec [⟨[⟨0, 512, false, 0⟩], 4, false⟩] false).2
    ⟨[⟨0, 512, false, 0⟩], 4, false⟩ [] rfl
  refine ⟨h.1, (h.2.1 rfl).1, ?_⟩
  have h2 := ((h.2.1 rfl).2.2 rfl).2
  simpa using h2

/-! ## Claim C9 -/

/-- Claim C9: a bio entering `blk_throtl_bio` with `REQ_THROTTLED`
already set short-circuits to `out:`, returning false with the whole
modelled throttle state (token buckets, queues, pending trees, timers)
unchanged and the marker cleared; and on every path whatsoever, a false
return clears the bio's marker, so a bio passes the subsystem at most
once. -/
theorem blk_throtl_bio_throttled_marker (s : Sys) (q : Nat)
    (tgRcu tgCreate junkFd : Option Nat) (now : Nat) (bio : Bio) :
    (bio.throttled = true →
      blk_throtl_bio s q tgRcu tgCreate junkFd now bio =
        some (false, s, { bio with throttled := false })) ∧
    (∀ throttled s1 bio1,
      blk_throtl_bio s q tgRcu tgCreate junkFd now bio = some (throttled, s1, bio1) →
      throttled = false → bio1.throttled = false) := by
  constructor
  · intro h
    simp [blk_throtl_bio, h]
  · intro throttled s1 bio1 hres hfalse
    subst hfalse
    unfold blk_throtl_bio at hres
    rcases hcore : (if bio.throttled then some (false, s, bio)
        else blk_throtl_bio_core s q tgRcu tgCreate junkFd now bio) with _ | ⟨thr, s2, b2⟩ <;>
      rw [hcore] at hres
    · simp at hres
    · simp at hres
      obtain ⟨h1, h2, h3⟩ := hres
      subst h1
      simp at h3
      rw [← h3]

theorem blk_throtl_bio_throttled_marker_witness :
    blk_throtl_bio ⟨[], [], []⟩ 0 none none none 0 ⟨0, 4096, true, 0⟩ =
      some (false, (⟨[], [], []⟩ : Sys), ⟨0, 4096, false, 0⟩) := by
  have h := blk_throtl_bio_throttled_marker ⟨[], [], []⟩ 0 none none none 0
    ⟨0, 4096, true, 0⟩
  exact h.1 rfl

/-! ## Claim C10 -/

/-- Claim C10 is false as stated: with both limits at `-1`, a current
slice and one whole width elapsed, an `io_disp` of `UINT_MAX` survives
the trim (the 32-bit counter can exceed the ≈4.29·10⁸ trim amount), so
the counters are not always reset to zero. -/
theorem claimC10_counterexample : ¬ claimC10 tgC10ce 0 100 := by decide

/-- Claim C10 (amended): with `bps[d] = iops[d] = -1` (stored as the
unsigned maxima), a trim on a current slice with `n ≥ 1` whole widths
elapsed resets both consumption counters to zero, provided the
accumulated consumption does not exceed the trim amounts
`(2^64 - S·n)/HZ` bytes and `(2^32-1)·S·n/HZ` IOs (bounds far above any
physically accumulable consumption, but violable in the raw 64/32-bit
state space) and `S·n` stays in sane range. -/
theorem throtl_trim_slice_unlimited_resets (tg : TG) (d : Fin 3) (now : Nat)
    (hbps : tg.bps d = U64MAX) (hiops : tg.iops d = U32MAX)
    (hcur : tg.slice_start d ≤ now ∧ now ≤ tg.slice_end d)
    (hn : 1 ≤ (now - tg.slice_start d) / throtl_slice)
    (hwrap : U32MAX * (throtl_slice * ((now - tg.slice_start d) / throtl_slice)) < U64)
    (hroom : throtl_slice * ((now - tg.slice_start d) / throtl_slice) + HZ ≤ U64)
    (hbd : tg.bytes_disp d ≤
      (U64 - throtl_slice * ((now - tg.slice_start d) / throtl_slice)) / HZ)
    (hio : tg.io_disp d ≤
      U32MAX * (throtl_slice * ((now - tg.slice_start d) / throtl_slice)) / HZ) :
    (throtl_trim_slice tg d now).bytes_disp d = 0 ∧
    (throtl_trim_slice tg d now).io_disp d = 0 := by
  have hS : 0 < throtl_slice := by unfold throtl_slice HZ; omega
  set n := (now - tg.slice_start d) / throtl_slice with hn_def
  have hk0 : 0 < throtl_slice * n := Nat.mul_pos hS (by omega)
  have hkU : throtl_slice * n < U64 := by
    have h1' : throtl_slice * n ≤ U32MAX * (throtl_slice * n) :=
      Nat.le_mul_of_pos_left _ (by unfold U32MAX U32; omega)
    omega
  have hbt : tg.bps d * throtl_slice * n % U64 = U64 - throtl_slice * n := by
    rw [hbps, Nat.mul_assoc]
    exact u64max_mul_mod (throtl_slice * n) hk0 hkU
  have hit : tg.iops d * throtl_slice * n % U64 = U32MAX * (throtl_slice * n) := by
    rw [hiops, Nat.mul_assoc]
    exact Nat.mod_eq_of_lt hwrap
  have hHZ : 0 < HZ := by unfold HZ; omega
  obtain ⟨h1, h2⟩ := trim_slice_fields tg d now
  have h3 := h2 hcur
  rw [← hn_def] at h3
  have hcond : ¬(n = 0 ∨
      (tg.bps d * throtl_slice * n % U64 / HZ = 0 ∧
        tg.iops d * throtl_slice * n % U64 / HZ = 0)) := by
    rw [hbt]
    intro hc
    rcases hc with hc | hc
    · omega
    · have := hc.1
      have hpos : 0 < (U64 - throtl_slice * n) / HZ := Nat.div_pos (by omega) hHZ
      omega
  rw [h3.2.2.1, h3.2.2.2, if_neg hcond, if_neg hcond, hbt, hit]
  constructor <;> omega

theorem throtl_trim_slice_unlimited_resets_witness :
    (throtl_trim_slice tgC10w 0 100).bytes_disp 0 = 0 ∧
    (throtl_trim_slice tgC10w 0 100).io_disp 0 = 0 :=
  throtl_trim_slice_unlimited_resets tgC10w 0 100 (by decide) (by decide)
    (by decide) (by decide) (by decide) (by decide) (by decide) (by decide)

end BlkThrottle
